import Mathlib

/-!
LoRa uplink adapter (`pkg/lora`): configuration, decoding, topic construction, request
pipeline, publish.

A shallow embedding of `pkg/lora/handler.go`, `pkg/lora/mqtt.go` and `pkg/lora/config.go`.

Go strings are modelled as Lean `String`s (sequences of Unicode code points); byte
slices (`[]byte`) are `List UInt8`; `time.Duration` and instants are `Int` nanoseconds.
Functions of the Go standard library that the adapter calls are modelled in the
namespaces `strings`, `unicode`, `json`, `errors`, `fmt`, `time` and `http`; where the
library's behaviour rests on tables or algorithms that are not part of the repository
(the JSON scanner, the Unicode case tables, `url.Parse`, `net.ParseIP`, `strconv.Quote`)
the missing piece is an explicit parameter.
-/

set_option autoImplicit false

/-! ## Go standard library: `error` values, `unicode`, `strings` -/

/-- A Go `error` value: its message (`Error()`) and, for an error made with the `%w` verb,
the error it wraps (`Unwrap()`). -/
inductive GoError where
  | new (text : String)
  | wrap (text : String) (err : GoError)
  deriving DecidableEq, Repr

namespace GoError

/-- Go `err.Error()`. -/
def Error : GoError → String
  | new text => text
  | wrap text _ => text

/-- Go `errors.Unwrap(err)`. -/
def Unwrap : GoError → Option GoError
  | new _ => none
  | wrap _ err => some err

end GoError

namespace errors

/-- Go `errors.New(text)`. -/
def New (text : String) : GoError := GoError.new text

end errors

namespace fmt

/-- Go `fmt.Errorf(text)` for a format without verbs. -/
def Errorf (text : String) : GoError := GoError.new text

/-- Go `fmt.Errorf(lead + "%w", err)`: the message is `lead` followed by the message of
`err`, and the result wraps `err`. -/
def ErrorfW (lead : String) (err : GoError) : GoError :=
  GoError.wrap (lead ++ err.Error) err

end fmt

namespace unicode

/-- Go `unicode.IsSpace(r)`: the Latin-1 spaces '\t', '\n', '\v', '\f', '\r', ' ',
U+0085, U+00A0 and the code points with the White_Space property beyond Latin-1. -/
def IsSpace (r : Char) : Bool :=
  let n := r.toNat
  n == 0x09 || n == 0x0A || n == 0x0B || n == 0x0C || n == 0x0D || n == 0x20
    || n == 0x85 || n == 0xA0 || n == 0x1680 || (0x2000 ≤ n && n ≤ 0x200A)
    || n == 0x2028 || n == 0x2029 || n == 0x202F || n == 0x205F || n == 0x3000

/-- Go `unicode.ToUpper(r)`: an ASCII code point is upper-cased by the rule for 'a'..'z';
any other code point is looked up in the Unicode case tables, which are not part of the
repository and are the parameter `caseTable`. -/
def ToUpper (caseTable : Char → Char) (r : Char) : Char :=
  if r.toNat ≤ 0x7F then
    if 0x61 ≤ r.toNat ∧ r.toNat ≤ 0x7A then Char.ofNat (r.toNat - 0x20) else r
  else caseTable r

end unicode

namespace strings

/-- Go `strings.Trim(s, cutset)`: `s` with all leading and trailing code points contained
in `cutset` removed. -/
def Trim (s cutset : String) : String :=
  ⟨((s.data.dropWhile (fun c => cutset.data.contains c)).reverse.dropWhile
      (fun c => cutset.data.contains c)).reverse⟩

/-- Go `strings.TrimSpace(s)`: `s` with all leading and trailing white space, as defined
by `unicode.IsSpace`, removed. -/
def TrimSpace (s : String) : String :=
  ⟨((s.data.dropWhile unicode.IsSpace).reverse.dropWhile unicode.IsSpace).reverse⟩

/-- Go `strings.ToUpper(s)`: every code point mapped by `unicode.ToUpper`. -/
def ToUpper (caseTable : Char → Char) (s : String) : String :=
  ⟨s.data.map (unicode.ToUpper caseTable)⟩

/-- Go `strings.Join(elems, sep)`: no element gives `""`; otherwise the first element
followed, for every further element, by `sep` and the element. -/
def Join (elems : List String) (sep : String) : String :=
  match elems with
  | [] => ""
  | e :: rest => rest.foldl (fun b s => b ++ sep ++ s) e

end strings

/-! ## Go standard library: `encoding/json` decoding into `uplinkEnvelope` -/

/-- Go `type uplinkEnvelope struct` (handler.go:71). -/
structure uplinkEnvelope where
  ApplicationID : String
  ApplicationIdAlt : String
  ApplicationIDS : String
  DevEUI : String
  DevEuiAlt : String
  DevEUIS : String
  DeviceName : String
  DeviceNameSnake : String
  deriving DecidableEq, Repr

/-- The fields of `uplinkEnvelope`. -/
inductive EnvField where
  | ApplicationID | ApplicationIdAlt | ApplicationIDS
  | DevEUI | DevEuiAlt | DevEUIS
  | DeviceName | DeviceNameSnake
  deriving DecidableEq, Repr

namespace EnvField

/-- The `json:"..."` tag of each field (handler.go:72-79). -/
def tag : EnvField → String
  | ApplicationID => "applicationID"
  | ApplicationIdAlt => "applicationId"
  | ApplicationIDS => "application_id"
  | DevEUI => "devEUI"
  | DevEuiAlt => "devEui"
  | DevEUIS => "dev_eui"
  | DeviceName => "deviceName"
  | DeviceNameSnake => "device_name"

/-- The fields in declaration order. -/
def all : List EnvField :=
  [ApplicationID, ApplicationIdAlt, ApplicationIDS, DevEUI, DevEuiAlt, DevEUIS,
    DeviceName, DeviceNameSnake]

end EnvField

namespace uplinkEnvelope

/-- The zero value `var env uplinkEnvelope`. -/
def zero : uplinkEnvelope := ⟨"", "", "", "", "", "", "", ""⟩

/-- Reading a field. -/
def get (env : uplinkEnvelope) : EnvField → String
  | .ApplicationID => env.ApplicationID
  | .ApplicationIdAlt => env.ApplicationIdAlt
  | .ApplicationIDS => env.ApplicationIDS
  | .DevEUI => env.DevEUI
  | .DevEuiAlt => env.DevEuiAlt
  | .DevEUIS => env.DevEUIS
  | .DeviceName => env.DeviceName
  | .DeviceNameSnake => env.DeviceNameSnake

/-- Assigning a field. -/
def set (env : uplinkEnvelope) (f : EnvField) (s : String) : uplinkEnvelope :=
  match f with
  | .ApplicationID => { env with ApplicationID := s }
  | .ApplicationIdAlt => { env with ApplicationIdAlt := s }
  | .ApplicationIDS => { env with ApplicationIDS := s }
  | .DevEUI => { env with DevEUI := s }
  | .DevEuiAlt => { env with DevEuiAlt := s }
  | .DevEUIS => { env with DevEUIS := s }
  | .DeviceName => { env with DeviceName := s }
  | .DeviceNameSnake => { env with DeviceNameSnake := s }

end uplinkEnvelope

namespace json

/-- A JSON value as the decoder sees it once the text has been scanned: object keys and
strings are unquoted, a number keeps its literal. -/
inductive Value where
  | null
  | bool (b : Bool)
  | number (literal : String)
  | string (s : String)
  | array (elems : List Value)
  | object (members : List (String × Value))

/-- The `Value` text of an `UnmarshalTypeError` for a JSON value stored into a Go string
or struct. -/
def Value.kind : Value → String
  | .null => "null"
  | .bool _ => "bool"
  | .number _ => "number"
  | .string _ => "string"
  | .array _ => "array"
  | .object _ => "object"

/-- Go `*json.UnmarshalTypeError`: a JSON value of kind `value` cannot be stored, either
in the struct field (a Go string) that the object key `field` is decoded into or, without
a field, in the struct. -/
def UnmarshalTypeError (value : String) (field : Option String) : GoError :=
  match field with
  | some f =>
    GoError.new ("json: cannot unmarshal " ++ value ++ " into Go struct field uplinkEnvelope."
      ++ f ++ " of type string")
  | none =>
    GoError.new ("json: cannot unmarshal " ++ value ++ " into Go value of type lora.uplinkEnvelope")

/-- Case folding of a key for the case-insensitive match: ASCII letters are upper-cased.
(None of the envelope's tags contains `k` or `s`, the only ASCII letters that Unicode
simple folding relates to a code point outside ASCII, so a key matches a tag under
encoding/json's folding exactly when the two are equal up to ASCII letter case.) -/
def foldName (s : String) : String :=
  ⟨s.data.map (fun c => if 0x61 ≤ c.toNat ∧ c.toNat ≤ 0x7A then Char.ofNat (c.toNat - 0x20) else c)⟩

/-- The struct field an object key is decoded into: the field whose tag equals the key;
failing that, the first field in declaration order whose tag equals the key ignoring
case; none if there is no such field. -/
def fieldByName (key : String) : Option EnvField :=
  match EnvField.all.find? (fun f => decide (f.tag = key)) with
  | some f => some f
  | none => EnvField.all.find? (fun f => decide (foldName f.tag = foldName key))

/-- Decoding one object member into the envelope. A key without field is skipped, a
string is assigned, `null` leaves the field as it is, and any other value is recorded as
an `UnmarshalTypeError` (the first one recorded is kept) while decoding goes on. -/
def decodeMember (st : uplinkEnvelope × Option GoError) (m : String × Value) :
    uplinkEnvelope × Option GoError :=
  match fieldByName m.1 with
  | none => st
  | some f =>
    match m.2 with
    | .string s => (st.1.set f s, st.2)
    | .null => st
    | v =>
      match st.2 with
      | some e => (st.1, some e)
      | none => (st.1, some (UnmarshalTypeError v.kind (some m.1)))

/-- Decoding a scanned JSON value into an envelope: `null` changes nothing, an object is
decoded member by member in order, anything else is an `UnmarshalTypeError`. -/
def decodeValue (v : Value) (env : uplinkEnvelope) : uplinkEnvelope × Option GoError :=
  match v with
  | .null => (env, none)
  | .object members => members.foldl decodeMember (env, none)
  | v => (env, some (UnmarshalTypeError v.kind none))

end json

/-- What the adapter uses of the Go runtime that rests on code or tables outside the
repository. -/
structure GoRuntime where
  /-- The scanner of encoding/json: the value of a JSON text, or the `*json.SyntaxError`
  of a text that is not valid JSON. -/
  scanJSON : List UInt8 → Except GoError json.Value
  /-- The upper-case mapping of the Unicode case tables (`unicode.ToUpper` beyond ASCII). -/
  caseTable : Char → Char

namespace json

/-- Go `json.Unmarshal(data, &env)`: the envelope after the call and the returned error.
A text that is not valid JSON is rejected before anything is decoded. -/
def Unmarshal (rt : GoRuntime) (data : List UInt8) (env : uplinkEnvelope) :
    uplinkEnvelope × Option GoError :=
  match rt.scanJSON data with
  | .error e => (env, some e)
  | .ok v => decodeValue v env

end json

/-! ## `handler.go`: messages and topics -/

/-- Go `type uplinkMessage struct` (handler.go:82). -/
structure uplinkMessage where
  ApplicationID : String
  DevEUI : String
  DeviceName : String
  deriving DecidableEq, Repr

/-- Go `func buildTopic(base string, msg uplinkMessage) string` (handler.go:104). -/
def buildTopic (base : String) (msg : uplinkMessage) : String :=
  let parts := [strings.Trim base "/"]
  let parts := if msg.ApplicationID ≠ "" then parts ++ [msg.ApplicationID] else parts
  let parts :=
    if msg.DevEUI ≠ "" then parts ++ [msg.DevEUI]
    else if msg.DeviceName ≠ "" then parts ++ [msg.DeviceName]
    else parts
  let parts := parts ++ ["up"]
  strings.Join parts "/"

/-- A topic segment that is present only when its value is non-empty. -/
def optionalSegment (s : String) : List String :=
  if s = "" then [] else [s]

/-- Go `func firstNonEmpty(values ...string) string` (handler.go:118). -/
def firstNonEmpty : List String → String
  | [] => ""
  | v :: rest => if strings.TrimSpace v ≠ "" then v else firstNonEmpty rest

/-- Go `func decodeUplink(body []byte) (uplinkMessage, error)` (handler.go:88). -/
def decodeUplink (rt : GoRuntime) (body : List UInt8) : Except GoError uplinkMessage :=
  match json.Unmarshal rt body uplinkEnvelope.zero with
  | (_, some err) => .error (fmt.ErrorfW "invalid uplink payload: " err)
  | (env, none) =>
    let msg : uplinkMessage :=
      { ApplicationID := firstNonEmpty [env.ApplicationID, env.ApplicationIdAlt, env.ApplicationIDS]
        DevEUI := strings.ToUpper rt.caseTable (firstNonEmpty [env.DevEUI, env.DevEuiAlt, env.DevEUIS])
        DeviceName := firstNonEmpty [env.DeviceName, env.DeviceNameSnake] }
    if msg.ApplicationID = "" ∧ msg.DevEUI = "" then
      .error (errors.New "uplink payload missing identifiers")
    else .ok msg

/-! ## Go standard library: `time`, `context`, `net/http` -/

namespace time

/-- Go `time.Second`, in nanoseconds. -/
def Second : Int := 1000000000

/-- The largest `time.Duration` (int64 nanoseconds). -/
def maxDuration : Int := 9223372036854775807

/-- The smallest `time.Duration`. -/
def minDuration : Int := -9223372036854775808

/-- Go `time.Until(t)` when the clock reads `now`: `t - now`, saturated to the range of
`time.Duration`. -/
def Until (now t : Int) : Int :=
  max minDuration (min maxDuration (t - now))

/-- Go `fmtFrac`: the fraction of `v / 10^prec` as text (".12345", trailing zeros and a
lone decimal point omitted) and the value `v / 10^prec`. -/
def fmtFrac (v prec : Nat) : String × Nat :=
  let r := (List.range prec).foldl
    (fun (st : List Char × Bool × Nat) (_ : Nat) =>
      let digit := st.2.2 % 10
      let print := st.2.1 || digit != 0
      (if print then Char.ofNat (digit + 0x30) :: st.1 else st.1, print, st.2.2 / 10))
    ([], false, v)
  (⟨if r.2.1 then '.' :: r.1 else r.1⟩, r.2.2)

/-- Go `time.Duration.String()`: "72h3m0.5s", with smaller units below one second
("1.5ms") and "0s" for zero. -/
def Duration.String (d : Int) : String :=
  let u := d.natAbs
  let text :=
    if u < 1000000000 then
      if u = 0 then "0s"
      else if u < 1000 then Nat.repr (fmtFrac u 0).2 ++ (fmtFrac u 0).1 ++ "ns"
      else if u < 1000000 then Nat.repr (fmtFrac u 3).2 ++ (fmtFrac u 3).1 ++ "µs"
      else Nat.repr (fmtFrac u 6).2 ++ (fmtFrac u 6).1 ++ "ms"
    else
      let secs := (fmtFrac u 9).2
      let s := Nat.repr (secs % 60) ++ (fmtFrac u 9).1 ++ "s"
      let mins := secs / 60
      if mins > 0 then
        let s := Nat.repr (mins % 60) ++ "m" ++ s
        let hours := mins / 60
        if hours > 0 then Nat.repr hours ++ "h" ++ s else s
      else s
  if d < 0 then "-" ++ text else text

end time

namespace context

/-- A Go `context.Context` as `Publish` observes it. -/
structure Context where
  /-- The result of `ctx.Deadline()`: the deadline, an instant in nanoseconds, if one is set. -/
  Deadline : Option Int
  /-- The result of `ctx.Err()` read once the wait for the token has elapsed. -/
  Err : Option GoError
  deriving DecidableEq, Repr

end context

namespace http

/-- Go `http.StatusAccepted`. -/
def StatusAccepted : Nat := 202

/-- Go `http.StatusBadRequest`. -/
def StatusBadRequest : Nat := 400

/-- Go `http.StatusRequestEntityTooLarge`. -/
def StatusRequestEntityTooLarge : Nat := 413

/-- Go `http.StatusBadGateway`. -/
def StatusBadGateway : Nat := 502

/-- Go `http.StatusOK`. -/
def StatusOK : Nat := 200

/-- An incoming request: the bytes its body delivers and `r.Context()`. -/
structure Request where
  Body : List UInt8
  Context : context.Context
  deriving DecidableEq, Repr

/-- What a handler has written to its `http.ResponseWriter`: the header set, the status
and the value handed to the JSON encoder (a `map[string]string`). -/
structure Response where
  header : List (String × String)
  status : Nat
  payload : Option (List (String × String))
  deriving DecidableEq, Repr

/-- Go `io.ReadAll(http.MaxBytesReader(w, r.Body, n))` on a body that is delivered in
full: the body when it has at most `n` bytes, a negative `n` counting as 0, and the error
of the reader when it is longer. -/
def readAllMaxBytes (n : Int) (body : List UInt8) : Except GoError (List UInt8) :=
  if (body.length : Int) ≤ max n 0 then .ok body
  else .error (GoError.new "http: request body too large")

end http

/-! ## `config.go`: configuration -/

/-- Go `type Config struct` (config.go:18); durations in nanoseconds. -/
structure Config where
  HTTPHost : String
  HTTPPort : String
  UplinkPath : String
  ReadHeaderTimeout : Int
  ShutdownTimeout : Int
  MaxBodySize : Int
  MagistralaMQTTURL : String
  MagistralaMQTTUsername : String
  MagistralaMQTTPassword : String
  MagistralaMQTTClientID : String
  MagistralaMQTTBaseTopic : String
  MagistralaMQTTPublishTimeout : Int
  ChirpstackAPIURL : String
  ChirpstackAPIToken : String
  LogLevel : String
  deriving DecidableEq, Repr

/-! ## `mqtt.go`: the publisher -/

namespace mqtt

/-- A paho `mqtt.Token` as `Publish` observes it. -/
structure Token where
  /-- The result of `token.WaitTimeout(d)`: whether the flow completed within `d`. -/
  WaitTimeout : Int → Bool
  /-- The result of `token.Error()`. -/
  Error : Option GoError

/-- A paho `mqtt.Client` as `Publish` observes it. -/
structure Client where
  /-- The result of `client.IsConnected()`. -/
  IsConnected : Bool
  /-- The token returned by `client.Publish(topic, qos, retained, payload)`. -/
  Publish : String → Nat → Bool → List UInt8 → Token

/-- What `Publish` asks of the client and of the token, in order. -/
inductive Call where
  | publish (topic : String) (qos : Nat) (retained : Bool) (payload : List UInt8)
  | waitTimeout (d : Int)
  deriving DecidableEq, Repr

end mqtt

/-- Go `const defaultPublishTimeout = 5 * time.Second` (mqtt.go:17). -/
def defaultPublishTimeout : Int := 5 * time.Second

/-- Go `type MQTTPublisher interface` (mqtt.go:19), as the handler uses it: the error
returned by `Publish(ctx, topic, payload)`. -/
structure MQTTPublisher where
  Publish : context.Context → String → List UInt8 → Option GoError

/-- Go `type mqttPublisher struct` (mqtt.go:24). -/
structure mqttPublisher where
  client : mqtt.Client
  timeout : Int

/-- Go `func (p *mqttPublisher) Publish(ctx, topic, payload) error` (mqtt.go:58), with the
clock reading `now` at the call of `time.Until`: the returned error and what was asked of
the client and of the token. -/
def mqttPublisher.Publish (now : Int) (p : mqttPublisher) (ctx : context.Context)
    (topic : String) (payload : List UInt8) : Option GoError × List mqtt.Call :=
  if ¬ p.client.IsConnected then
    (some (fmt.Errorf "mqtt client is not connected"), [])
  else
    let token := p.client.Publish topic 0 false payload
    let waitTimeout := p.timeout
    let waitTimeout :=
      match ctx.Deadline with
      | some deadline =>
        let rem := time.Until now deadline
        if rem > 0 ∧ rem < waitTimeout then rem else waitTimeout
      | none => waitTimeout
    let calls := [mqtt.Call.publish topic 0 false payload, mqtt.Call.waitTimeout waitTimeout]
    if ¬ token.WaitTimeout waitTimeout then
      match ctx.Err with
      | some err => (some (fmt.ErrorfW "publish cancelled: " err), calls)
      | none =>
        (some (fmt.Errorf ("publishing to topic " ++ topic ++ " timed out after "
          ++ time.Duration.String waitTimeout)), calls)
    else
      match token.Error with
      | some err => (some (fmt.ErrorfW "publish error: " err), calls)
      | none => (none, calls)

/-! ## `handler.go`: the request pipeline -/

/-- A record written to the `slog.Logger`. -/
structure LogRecord where
  level : String
  msg : String
  attrs : List (String × String)
  deriving DecidableEq, Repr

/-- Go `type Handler struct` (handler.go:19); `logger` tells whether the logger is
non-nil. -/
structure Handler where
  publisher : MQTTPublisher
  cfg : Config
  logger : Bool

/-- A call of `publisher.Publish`. -/
structure PublishCall where
  ctx : context.Context
  topic : String
  payload : List UInt8
  deriving DecidableEq, Repr

/-- What serving one request does: the response written, the calls of
`publisher.Publish` in order, and the log records. -/
structure Exchange where
  response : http.Response
  published : List PublishCall
  log : List LogRecord
  deriving DecidableEq, Repr

/-- Go `func writeJSON(w, status, payload)` (handler.go:127). -/
def writeJSON (status : Nat) (payload : Option (List (String × String))) : http.Response :=
  { header := [("Content-Type", "application/json")], status := status, payload := payload }

/-- Go `func writeError(w, status, err)` (handler.go:136). -/
def writeError (status : Nat) (err : GoError) : http.Response :=
  writeJSON status (some [("error", err.Error)])

/-- Go `func (h Handler) logError(message, err, attrs...)` (handler.go:140). -/
def Handler.logError (h : Handler) (message : String) (err : GoError)
    (attrs : List (String × String)) : List LogRecord :=
  if h.logger = false then []
  else [{ level := "ERROR", msg := message, attrs := attrs ++ [("error", err.Error)] }]

/-- Go `func (h Handler) uplink(w, r)` (handler.go:40). -/
def Handler.uplink (rt : GoRuntime) (h : Handler) (r : http.Request) : Exchange :=
  match http.readAllMaxBytes h.cfg.MaxBodySize r.Body with
  | .error err =>
    { log := h.logError "failed to read request body" err []
      response := writeError http.StatusRequestEntityTooLarge
        (fmt.ErrorfW "failed to read body: " err)
      published := [] }
  | .ok body =>
    if body.length = 0 then
      { log := h.logError "empty uplink payload" (errors.New "empty body") []
        response := writeError http.StatusBadRequest (errors.New "empty request body")
        published := [] }
    else
      match decodeUplink rt body with
      | .error err =>
        { log := h.logError "failed to decode uplink payload" err []
          response := writeError http.StatusBadRequest err
          published := [] }
      | .ok msg =>
        let topic := buildTopic h.cfg.MagistralaMQTTBaseTopic msg
        match h.publisher.Publish r.Context topic body with
        | some err =>
          { log := h.logError "failed to forward uplink to MQTT" err [("topic", topic)]
            response := writeError http.StatusBadGateway err
            published := [⟨r.Context, topic, body⟩] }
        | none =>
          { log :=
              if h.logger = false then []
              else [{ level := "INFO", msg := "uplink forwarded",
                      attrs := [("topic", topic), ("application_id", msg.ApplicationID),
                        ("dev_eui", msg.DevEUI)] }]
            response := writeJSON http.StatusAccepted (some [("status", "forwarded")])
            published := [⟨r.Context, topic, body⟩] }

/-! ## Go standard library used by `config.go` and the constructor of `mqtt.go` -/

namespace unicode

/-- Go `unicode.ToLower(r)`: an ASCII code point is lower-cased by the rule for 'A'..'Z';
any other code point is looked up in the Unicode case tables, the parameter `caseTable`. -/
def ToLower (caseTable : Char → Char) (r : Char) : Char :=
  if r.toNat ≤ 0x7F then
    if 0x41 ≤ r.toNat ∧ r.toNat ≤ 0x5A then Char.ofNat (r.toNat + 0x20) else r
  else caseTable r

end unicode

namespace strings

/-- Go `strings.ToLower(s)`: every code point mapped by `unicode.ToLower`. -/
def ToLower (caseTable : Char → Char) (s : String) : String :=
  ⟨s.data.map (unicode.ToLower caseTable)⟩

/-- Go `strings.HasPrefix(s, lead)`: whether `s` begins with `lead`. -/
def HasPrefix (s lead : String) : Bool :=
  lead.data.isPrefixOf s.data

/-- Go `strings.HasSuffix(s, tail)`: whether `s` ends with `tail`. -/
def HasSuffix (s tail : String) : Bool :=
  tail.data.reverse.isPrefixOf s.data.reverse

/-- Go `strings.TrimPrefix(s, lead)`: `s` without the leading `lead`, or `s` itself when
it does not begin with `lead`. -/
def TrimPrefix (s lead : String) : String :=
  if HasPrefix s lead then ⟨s.data.drop lead.data.length⟩ else s

/-- Go `strings.TrimRight(s, cutset)`: `s` with all trailing code points contained in
`cutset` removed. -/
def TrimRight (s cutset : String) : String :=
  ⟨(s.data.reverse.dropWhile (fun c => cutset.data.contains c)).reverse⟩

/-- Go `strings.Contains(s, substr)`: whether `substr` occurs within `s`. -/
def Contains (s substr : String) : Bool :=
  decide (substr.data <:+: s.data)

end strings

namespace hex

/-- The hexadecimal digit of a value below 16, in lower case. -/
def digit (n : Nat) : Char :=
  if n < 10 then Char.ofNat (0x30 + n) else Char.ofNat (0x61 + (n - 10))

/-- Go `hex.EncodeToString(src)`: two lower-case hexadecimal digits for every byte. -/
def EncodeToString (src : List UInt8) : String :=
  ⟨src.flatMap (fun b => [digit (b.toNat / 16), digit (b.toNat % 16)])⟩

end hex

namespace url

/-- A parsed `*url.URL` as the adapter reads it. -/
structure URL where
  /-- The field `u.Scheme`. -/
  Scheme : String
  /-- The field `u.Host` (host or host:port). -/
  Host : String
  /-- The result of `u.String()`. -/
  text : String
  deriving DecidableEq, Repr

end url

/-- What config.go and the constructor of mqtt.go use of the Go standard library that
rests on code or tables outside the repository. -/
structure GoNetLib where
  /-- Go `url.Parse(raw)`: the parsed URL or the `*url.Error`. -/
  urlParse : String → Except GoError url.URL
  /-- Go `net.ParseIP(s)`: whether the result is non-nil. -/
  parseIP : String → Bool
  /-- Go `strconv.Quote(s)`, used in the message of a `*strconv.NumError`. -/
  quote : String → String
  /-- The lower-case mapping of the Unicode case tables (`unicode.ToLower` beyond ASCII). -/
  lowerTable : Char → Char

namespace strconv

/-- The digit loop of Go `strconv.ParseUint` in base 10 for 64 bits, continuing from the
value `n`: the value of the digits, or an error that is a range error (`true`) when the
value overflows before any other fault, and a syntax error (`false`) at a code point that
is not a digit. -/
def parseUintLoop : List Char → Nat → Except Bool Nat
  | [], n => .ok n
  | c :: cs, n =>
    if ¬ (0x30 ≤ c.toNat ∧ c.toNat ≤ 0x39) then .error false
    else if 1844674407370955162 ≤ n then .error true
    else if 18446744073709551615 < n * 10 + (c.toNat - 0x30) then .error true
    else parseUintLoop cs (n * 10 + (c.toNat - 0x30))

/-- Go `strconv.Atoi(s)` with a 64-bit `int`: the value of an optional sign followed by one
or more decimal digits; a syntax error for any other text and a range error for a value
that does not fit. -/
def Atoi (quote : String → String) (s : String) : Except GoError Int :=
  let digits :=
    match s.data with
    | '+' :: rest => rest
    | '-' :: rest => rest
    | cs => cs
  if digits = [] then
    .error (GoError.wrap ("strconv.Atoi: parsing " ++ quote s ++ ": invalid syntax")
      (GoError.new "invalid syntax"))
  else
    match parseUintLoop digits 0 with
    | .error false =>
      .error (GoError.wrap ("strconv.Atoi: parsing " ++ quote s ++ ": invalid syntax")
        (GoError.new "invalid syntax"))
    | .error true =>
      .error (GoError.wrap ("strconv.Atoi: parsing " ++ quote s ++ ": value out of range")
        (GoError.new "value out of range"))
    | .ok un =>
      if s.data.head? = some '-' then
        if 9223372036854775808 < un then
          .error (GoError.wrap ("strconv.Atoi: parsing " ++ quote s ++ ": value out of range")
            (GoError.new "value out of range"))
        else .ok (-(un : Int))
      else if 9223372036854775808 ≤ un then
        .error (GoError.wrap ("strconv.Atoi: parsing " ++ quote s ++ ": value out of range")
          (GoError.new "value out of range"))
      else .ok (un : Int)

end strconv

/-! ## `config.go`: validation -/

/-- Go `func sanitizePath(path string) string` (config.go:96). -/
def sanitizePath (path : String) : String :=
  if path = "" then "/uplink"
  else
    let path := if ¬ strings.HasPrefix path "/" then "/" ++ path else path
    if path ≠ "/" ∧ strings.HasSuffix path "/" then
      let path := strings.TrimRight path "/"
      if path = "" then "/" else path
    else path

/-- Go `func parseMQTTURL(raw string) (*url.URL, error)` (config.go:112). -/
def parseMQTTURL (lib : GoNetLib) (raw : String) : Except GoError url.URL :=
  if strings.TrimSpace raw = "" then
    .error (errors.New "magistrala MQTT URL must not be empty")
  else
    match lib.urlParse raw with
    | .error err => .error (fmt.ErrorfW "invalid magistrala MQTT URL: " err)
    | .ok u =>
      if strings.ToLower lib.lowerTable u.Scheme ∈ ["mqtt", "tcp", "ssl", "tls", "ws", "wss"] then
        if u.Host = "" then .error (errors.New "magistrala MQTT URL missing host")
        else .ok u
      else .error (fmt.Errorf ("unsupported mqtt scheme: " ++ u.Scheme))

/-- Go `func (cfg *Config) Validate() error` (config.go:50) on a non-nil receiver: the
configuration as the call leaves it and the returned error. -/
def Config.Validate (lib : GoNetLib) (cfg : Config) : Config × Option GoError :=
  let cfg := if strings.TrimSpace cfg.HTTPPort = "" then { cfg with HTTPPort := "8080" } else cfg
  match strconv.Atoi lib.quote cfg.HTTPPort with
  | .error err => (cfg, some (fmt.ErrorfW "invalid http port: " err))
  | .ok _ =>
    if cfg.MaxBodySize ≤ 0 then
      (cfg, some (fmt.Errorf ("invalid max body size: " ++ toString cfg.MaxBodySize)))
    else
      let cfg := { cfg with UplinkPath := sanitizePath cfg.UplinkPath }
      if ¬ strings.HasPrefix cfg.UplinkPath "/" then
        (cfg, some (fmt.Errorf ("uplink path must start with '/' got " ++ cfg.UplinkPath)))
      else
        let cfg :=
          { cfg with MagistralaMQTTBaseTopic := strings.Trim cfg.MagistralaMQTTBaseTopic "/" }
        if cfg.MagistralaMQTTBaseTopic = "" then
          (cfg, some (errors.New "magistrala base topic must not be empty"))
        else
          match parseMQTTURL lib cfg.MagistralaMQTTURL with
          | .error err => (cfg, some err)
          | .ok _ =>
            if cfg.MagistralaMQTTPublishTimeout ≤ 0 then
              (cfg, some (fmt.Errorf "magistrala mqtt publish timeout must be positive"))
            else if cfg.HTTPHost ≠ "" ∧ (lib.parseIP cfg.HTTPHost = false ∧ cfg.HTTPHost ≠ "localhost")
                ∧ strings.Contains cfg.HTTPHost " " = true then
              (cfg, some (fmt.Errorf ("invalid http host: " ++ cfg.HTTPHost)))
            else (cfg, none)

/-- Go `func (cfg *Config) Validate() error` on a receiver that may be nil
(config.go:51). -/
def Config.ValidatePtr (lib : GoNetLib) (cfg : Option Config) : Option Config × Option GoError :=
  match cfg with
  | none => (none, some (errors.New "missing configuration"))
  | some c => (some (Config.Validate lib c).1, (Config.Validate lib c).2)

/-! ## `mqtt.go`: construction of the publisher -/

namespace mqtt

/-- The paho `ClientOptions` as `NewMQTTPublisher` sets them. -/
structure ClientOptions where
  /-- The broker addresses handed to `AddBroker`, in order. -/
  Brokers : List String
  ClientID : String
  Username : String
  Password : String
  ConnectRetry : Bool
  ConnectRetryInterval : Int
  AutoReconnect : Bool
  deriving DecidableEq, Repr

end mqtt

/-- Go `func randomSuffix(length int) string` (mqtt.go:88); `randRead n` is the outcome of
`rand.Read` on a buffer of `n` bytes: the bytes read, or none on error. -/
def randomSuffix (randRead : Nat → Option (List UInt8)) (length : Int) : String :=
  if length ≤ 0 then ""
  else
    match randRead length.toNat with
    | none => ""
    | some bytes =>
      let encoded := hex.EncodeToString bytes
      if (encoded.data.length : Int) > length then ⟨encoded.data.take length.toNat⟩ else encoded

/-- Go `func convertBrokerScheme(raw string) string` (mqtt.go:103). -/
def convertBrokerScheme (raw : String) : String :=
  if raw = "" then raw
  else if strings.HasPrefix raw "mqtt://" then "tcp://" ++ strings.TrimPrefix raw "mqtt://"
  else if strings.HasPrefix raw "mqtts://" then "ssl://" ++ strings.TrimPrefix raw "mqtts://"
  else raw

/-- Go `func NewMQTTPublisher(cfg Config) (MQTTPublisher, error)` (mqtt.go:29). `connect`
stands for `mqtt.NewClient(opts)` followed by `client.Connect()` and the wait for its
token: the client and the error of the token. The result is the publisher or the error,
together with the options handed to `mqtt.NewClient`. -/
def NewMQTTPublisher (lib : GoNetLib) (randRead : Nat → Option (List UInt8))
    (connect : mqtt.ClientOptions → mqtt.Client × Option GoError) (cfg : Config) :
    Except GoError mqttPublisher × List mqtt.ClientOptions :=
  match parseMQTTURL lib cfg.MagistralaMQTTURL with
  | .error err => (.error err, [])
  | .ok brokerURL =>
    let cfg :=
      if cfg.MagistralaMQTTClientID = "" then
        { cfg with MagistralaMQTTClientID := "lora-adapter-" ++ randomSuffix randRead 6 }
      else cfg
    let opts : mqtt.ClientOptions :=
      { Brokers := [convertBrokerScheme brokerURL.text]
        ClientID := cfg.MagistralaMQTTClientID
        Username := if cfg.MagistralaMQTTUsername ≠ "" then cfg.MagistralaMQTTUsername else ""
        Password := if cfg.MagistralaMQTTUsername ≠ "" then cfg.MagistralaMQTTPassword else ""
        ConnectRetry := true
        ConnectRetryInterval := 2 * time.Second
        AutoReconnect := true }
    match connect opts with
    | (_, some err) => (.error (fmt.ErrorfW "failed to connect to MQTT broker: " err), [opts])
    | (client, none) =>
      let timeout := defaultPublishTimeout
      let timeout :=
        if cfg.MagistralaMQTTPublishTimeout > 0 then cfg.MagistralaMQTTPublishTimeout
        else timeout
      (.ok { client := client, timeout := timeout }, [opts])

/-- The wait bound that `Publish` computes at mqtt.go:63-68 when the clock reads `now`. -/
def waitBound (now : Int) (p : mqttPublisher) (ctx : context.Context) : Int :=
  match ctx.Deadline with
  | some deadline =>
    if time.Until now deadline > 0 ∧ time.Until now deadline < p.timeout then
      time.Until now deadline
    else p.timeout
  | none => p.timeout

/-- The configuration with the three normalisations of `Validate` applied: a blank port
replaced by "8080", the uplink path passed through `sanitizePath`, the base topic trimmed
of "/". -/
def Config.normalised (cfg : Config) : Config :=
  { cfg with
    HTTPPort := if strings.TrimSpace cfg.HTTPPort = "" then "8080" else cfg.HTTPPort
    UplinkPath := sanitizePath cfg.UplinkPath
    MagistralaMQTTBaseTopic := strings.Trim cfg.MagistralaMQTTBaseTopic "/" }

/-- The conditions under which `Validate` returns no error. -/
def Config.acceptable (lib : GoNetLib) (cfg : Config) : Prop :=
  (∃ n, strconv.Atoi lib.quote
      (if strings.TrimSpace cfg.HTTPPort = "" then "8080" else cfg.HTTPPort) = .ok n)
  ∧ 0 < cfg.MaxBodySize
  ∧ strings.Trim cfg.MagistralaMQTTBaseTopic "/" ≠ ""
  ∧ (∃ u, parseMQTTURL lib cfg.MagistralaMQTTURL = .ok u)
  ∧ 0 < cfg.MagistralaMQTTPublishTimeout
  ∧ ¬ (cfg.HTTPHost ≠ "" ∧ (lib.parseIP cfg.HTTPHost = false ∧ cfg.HTTPHost ≠ "localhost")
        ∧ strings.Contains cfg.HTTPHost " " = true)

/-- A port text that is a number: an optional sign followed by one or more decimal
digits. -/
def numericPort (s : String) : Bool :=
  let digits :=
    match s.data with
    | '+' :: rest => rest
    | '-' :: rest => rest
    | cs => cs
  !digits.isEmpty && digits.all Char.isDigit

/-! ## Reading a JSON object, for the statements about `decodeUplink` -/

/-- The string of a JSON value that is a string. -/
def json.Value.string? : json.Value → Option String
  | .string s => some s
  | _ => none

/-- The value an object holds under a key, the key read literally: the string of the last
member with exactly this key whose value is a string, `""` when there is none. -/
def memberString (members : List (String × json.Value)) (key : String) : String :=
  ((members.filterMap (fun m => if m.1 = key then m.2.string? else none)).getLast?).getD ""

/-- The value an object holds for a field of the envelope, keys matched as encoding/json
matches them (`json.fieldByName`): the string of the last member whose key is matched to
the field and whose value is a string, `""` when there is none. -/
def fieldString (members : List (String × json.Value)) (f : EnvField) : String :=
  ((members.filterMap
      (fun m => if json.fieldByName m.1 = some f then m.2.string? else none)).getLast?).getD ""

/-- The first value of a list that is not blank (not empty after trimming white space),
`""` when every value is blank. -/
def firstNonBlank (values : List String) : String :=
  (values.find? (fun v => decide (strings.TrimSpace v ≠ ""))).getD ""

/-- A JSON value that encoding/json cannot store in the envelope: a value that is neither
an object nor `null`, or an object with a member whose key is matched to a field and whose
value is neither a string nor `null`. -/
def json.typeMismatch : json.Value → Bool
  | .null => false
  | .object members =>
    members.any (fun m =>
      (json.fieldByName m.1).isSome &&
        (match m.2 with
          | .string _ => false
          | .null => false
          | _ => true))
  | _ => true

/-- The message that handler.go:93-97 builds from an envelope. -/
def normalised (rt : GoRuntime) (env : uplinkEnvelope) : uplinkMessage :=
  { ApplicationID := firstNonEmpty [env.ApplicationID, env.ApplicationIdAlt, env.ApplicationIDS]
    DevEUI := strings.ToUpper rt.caseTable (firstNonEmpty [env.DevEUI, env.DevEuiAlt, env.DevEUIS])
    DeviceName := firstNonEmpty [env.DeviceName, env.DeviceNameSnake] }

/-! ## Worked examples: request bodies and a runtime that reads them -/

/-- The bytes of an ASCII text. -/
def asciiBytes (s : String) : List UInt8 :=
  s.data.map (fun c => UInt8.ofNat c.toNat)

/-- The JSON texts used in the worked examples, each with the value it denotes. -/
def exampleBodies : List (String × json.Value) :=
  [ ("\x7b\"applicationID\":\"42\",\"devEUI\":\"0102030405060708\",\"deviceName\":\"sensor-1\"\x7d",
      .object [("applicationID", .string "42"), ("devEUI", .string "0102030405060708"),
        ("deviceName", .string "sensor-1")]),
    ("\x7b\"applicationId\":\"17\",\"dev_eui\":\"AABBCC\",\"device_name\":\"node\"\x7d",
      .object [("applicationId", .string "17"), ("dev_eui", .string "AABBCC"),
        ("device_name", .string "node")]),
    ("\x7b\"dev_eui\":\"aabbcc\"\x7d", .object [("dev_eui", .string "aabbcc")]),
    ("\x7b\"data\":\"AQ==\"\x7d", .object [("data", .string "AQ==")]),
    ("\x7b\"deviceName\":\"node\"\x7d", .object [("deviceName", .string "node")]),
    ("\x7b\"APPLICATIONID\":\"7\",\"devEUI\":\"AA\"\x7d",
      .object [("APPLICATIONID", .string "7"), ("devEUI", .string "AA")]),
    ("\x7b\"applicationID\":5,\"devEUI\":\"AA\"\x7d",
      .object [("applicationID", .number "5"), ("devEUI", .string "AA")]) ]

/-- A runtime for the worked examples: its scanner is tabulated on `exampleBodies` and
reports any other text as a syntax error; its case table is the identity (the examples
are ASCII). -/
def exampleRuntime : GoRuntime where
  scanJSON body :=
    match exampleBodies.find? (fun e => decide (asciiBytes e.1 = body)) with
    | some e => .ok e.2
    | none => .error (GoError.new "invalid character looking for beginning of value")
  caseTable := id

/-- A publisher that accepts every message. -/
def acceptingPublisher : MQTTPublisher :=
  { Publish := fun _ _ _ => none }

/-- A publisher that fails every message with the error of a disconnected client. -/
def failingPublisher : MQTTPublisher :=
  { Publish := fun _ _ _ => some (fmt.Errorf "mqtt client is not connected") }

/-- A configuration with the defaults of config.go and a broker URL. -/
def exampleConfig : Config :=
  { HTTPHost := "0.0.0.0", HTTPPort := "8080", UplinkPath := "/uplink",
    ReadHeaderTimeout := 5 * time.Second, ShutdownTimeout := 5 * time.Second,
    MaxBodySize := 1048576, MagistralaMQTTURL := "mqtt://broker:1883",
    MagistralaMQTTUsername := "", MagistralaMQTTPassword := "", MagistralaMQTTClientID := "",
    MagistralaMQTTBaseTopic := "lora", MagistralaMQTTPublishTimeout := 5 * time.Second,
    ChirpstackAPIURL := "", ChirpstackAPIToken := "", LogLevel := "info" }

/-- A request context without deadline that is not cancelled. -/
def backgroundContext : context.Context :=
  { Deadline := none, Err := none }

/-- A connected client whose publish tokens complete at once without error. -/
def connectedClient : mqtt.Client :=
  { IsConnected := true
    Publish := fun _ _ _ _ => { WaitTimeout := fun _ => true, Error := none } }

/-- A client that reports it is not connected. -/
def disconnectedClient : mqtt.Client :=
  { IsConnected := false
    Publish := fun _ _ _ _ => { WaitTimeout := fun _ => true, Error := none } }

/-- The broker URLs used in the worked examples, each with what `url.Parse` makes of it. -/
def exampleURLs : List (String × url.URL) :=
  [ ("mqtt://broker:1883", ⟨"mqtt", "broker:1883", "mqtt://broker:1883"⟩),
    ("mqtts://broker:8883", ⟨"mqtts", "broker:8883", "mqtts://broker:8883"⟩),
    ("ssl://broker:8883", ⟨"ssl", "broker:8883", "ssl://broker:8883"⟩) ]

/-- A library for the worked examples: `url.Parse` is tabulated on `exampleURLs` and
reports any other text as an error, `net.ParseIP` knows the address 0.0.0.0, quoting puts
the text between double quotes and the case table is the identity (the examples are
ASCII). -/
def exampleNetLib : GoNetLib where
  urlParse raw :=
    match exampleURLs.find? (fun e => decide (e.1 = raw)) with
    | some e => .ok e.2
    | none => .error (GoError.new ("parse \"" ++ raw ++ "\": invalid URL"))
  parseIP s := decide (s = "0.0.0.0")
  quote s := "\"" ++ s ++ "\""
  lowerTable := id

/-- An outcome of `mqtt.NewClient` and `Connect` that succeeds with a connected client. -/
def connectOK (_opts : mqtt.ClientOptions) : mqtt.Client × Option GoError :=
  (connectedClient, none)

/-- An outcome of `rand.Read` that fills the buffer with the bytes 0xAB. -/
def randReadAB (n : Nat) : Option (List UInt8) :=
  some (List.replicate n 0xAB)

/-- A connected client whose publish tokens never complete within the wait. -/
def stalledClient : mqtt.Client :=
  { IsConnected := true
    Publish := fun _ _ _ _ => { WaitTimeout := fun _ => false, Error := none } }

/-! ## Lemmas: `strings` -/

theorem foldl_sep_eq_intercalate_go (sep : String) (rest : List String) (acc : String) :
    rest.foldl (fun b s => b ++ sep ++ s) acc = String.intercalate.go acc sep rest := by
  induction rest generalizing acc with
  | nil => rfl
  | cons x xs ih => simp [String.intercalate.go, ih]

theorem Join_eq_intercalate (elems : List String) (sep : String) :
    strings.Join elems sep = sep.intercalate elems := by
  cases elems with
  | nil => rfl
  | cons e rest => simp [strings.Join, String.intercalate, foldl_sep_eq_intercalate_go]

theorem Trim_slash_data (s : String) :
    (strings.Trim s "/").data
      = ((s.data.dropWhile (fun c => c == '/')).reverse.dropWhile (fun c => c == '/')).reverse := by
  have h : (fun c : Char => ("/" : String).data.contains c) = (fun c => c == '/') := by
    funext c
    show List.elem c ['/'] = (c == '/')
    simp only [List.elem]
    cases c == '/' <;> rfl
  simp only [strings.Trim, h]

theorem dropWhile_decompose {α : Type} (p : α → Bool) (l : List α) :
    ∃ n, l = l.take n ++ l.dropWhile p ∧ ∀ x ∈ l.take n, p x = true := by
  induction l with
  | nil => exact ⟨0, by simp⟩
  | cons x xs ih =>
    by_cases hx : p x = true
    · obtain ⟨n, h1, h2⟩ := ih
      refine ⟨n + 1, ?_, ?_⟩
      · simp only [List.take_succ_cons, List.dropWhile_cons, hx, if_true, List.cons_append]
        rw [← h1]
      · intro y hy
        simp only [List.take_succ_cons, List.mem_cons] at hy
        rcases hy with rfl | hy
        · exact hx
        · exact h2 y hy
    · refine ⟨0, ?_, by simp⟩
      simp [List.dropWhile_cons, hx]

theorem eq_replicate_of_all_slash (l : List Char) (h : ∀ x ∈ l, (x == '/') = true) :
    l = List.replicate l.length '/' := by
  induction l with
  | nil => rfl
  | cons x xs ih =>
    have hx : x = '/' := by simpa using h x (List.mem_cons_self _ _)
    have := ih (fun y hy => h y (List.mem_cons_of_mem _ hy))
    simp only [List.length_cons, List.replicate_succ, hx]
    rw [← this]

theorem dropWhile_head_ne {α : Type} (p : α → Bool) (l : List α) (x : α)
    (h : (l.dropWhile p).head? = some x) : p x = false := by
  induction l with
  | nil => simp at h
  | cons y ys ih =>
    by_cases hy : p y = true
    · simp only [List.dropWhile_cons, hy, if_true] at h
      exact ih h
    · simp only [List.dropWhile_cons, hy] at h
      simp at h
      subst h
      simpa using hy

/-- Trimming "/" removes a run of "/" at each end and leaves a string that neither
starts nor ends with "/". -/
theorem Trim_slash_spec (s : String) :
    (∃ a b : Nat, s.data = List.replicate a '/' ++ (strings.Trim s "/").data ++ List.replicate b '/')
    ∧ (strings.Trim s "/").data.head? ≠ some '/'
    ∧ (strings.Trim s "/").data.getLast? ≠ some '/' := by
  rw [Trim_slash_data]
  set p : Char → Bool := fun c => c == '/' with hp
  set l1 := s.data.dropWhile p with hl1
  obtain ⟨n, hn1, hn2⟩ := dropWhile_decompose p s.data
  obtain ⟨m, hm1, hm2⟩ := dropWhile_decompose p l1.reverse
  refine ⟨⟨(s.data.take n).length, (l1.reverse.take m).length, ?_⟩, ?_, ?_⟩
  · have e1 := eq_replicate_of_all_slash _ hn2
    have e2 := eq_replicate_of_all_slash _ hm2
    have hl : l1 = (l1.reverse.dropWhile p).reverse ++ (l1.reverse.take m).reverse := by
      have := congrArg List.reverse hm1
      simpa using this
    have e3 : (l1.reverse.take m).reverse = List.replicate (l1.reverse.take m).length '/' := by
      rw [e2]; simp
    rw [← e1, ← e3, List.append_assoc, ← hl]
    exact hn1
  · intro h
    -- the head of the trimmed string is an element of it, hence of `l1`, and is its head
    cases hr : (l1.reverse.dropWhile p).reverse with
    | nil => rw [hr] at h; simp at h
    | cons c cs =>
      rw [hr] at h
      simp at h
      subst h
      have hl : l1 = (l1.reverse.dropWhile p).reverse ++ (l1.reverse.take m).reverse := by
        have := congrArg List.reverse hm1
        simpa using this
      rw [hr] at hl
      have hh : l1.head? = some '/' := by rw [hl]; rfl
      have := dropWhile_head_ne p s.data '/' hh
      simp [hp] at this
  · intro h
    rw [List.getLast?_reverse] at h
    have := dropWhile_head_ne p l1.reverse '/' h
    simp [hp] at this

/-! ## Topic construction -/

/-- C5: `buildTopic(base, msg)` is the "/"-join of: `base` with its leading and trailing
"/" trimmed; `ApplicationID` if non-empty; `DevEUI` if non-empty, otherwise `DeviceName`
if non-empty; and the final segment "up". The trimmed base differs from `base` only by a
run of "/" at each end and neither starts nor ends with "/". In particular
`buildTopic("lora", {"1","AA","node"}) = "lora/1/AA/up"` and
`buildTopic("lora", {"","","node"}) = "lora/node/up"`. -/
theorem buildTopic_is_join (base : String) (msg : uplinkMessage) :
    buildTopic base msg
        = "/".intercalate
            ([strings.Trim base "/"]
              ++ optionalSegment msg.ApplicationID
              ++ (if msg.DevEUI ≠ "" then [msg.DevEUI] else optionalSegment msg.DeviceName)
              ++ ["up"])
    ∧ (∃ a b : Nat,
        base.data = List.replicate a '/' ++ (strings.Trim base "/").data ++ List.replicate b '/')
    ∧ (strings.Trim base "/").data.head? ≠ some '/'
    ∧ (strings.Trim base "/").data.getLast? ≠ some '/'
    ∧ buildTopic "lora" ⟨"1", "AA", "node"⟩ = "lora/1/AA/up"
    ∧ buildTopic "lora" ⟨"", "", "node"⟩ = "lora/node/up" := by
  refine ⟨?_, (Trim_slash_spec base).1, (Trim_slash_spec base).2.1, (Trim_slash_spec base).2.2,
    by decide, by decide⟩
  unfold buildTopic
  simp only [Join_eq_intercalate, optionalSegment]
  by_cases h1 : msg.ApplicationID = "" <;> by_cases h2 : msg.DevEUI = "" <;>
    by_cases h3 : msg.DeviceName = "" <;> simp [h1, h2, h3]

/-- C6: two messages with the same ApplicationID and the same non-empty DevEUI get the
same topic under every base topic, whatever their DeviceName values: a present DevEUI
suppresses the device name. -/
theorem buildTopic_ignores_deviceName (base : String) (m₁ m₂ : uplinkMessage)
    (happ : m₁.ApplicationID = m₂.ApplicationID) (hdev : m₁.DevEUI = m₂.DevEUI)
    (hne : m₁.DevEUI ≠ "") :
    buildTopic base m₁ = buildTopic base m₂ := by
  have hne2 : m₂.DevEUI ≠ "" := hdev ▸ hne
  unfold buildTopic
  simp only [hne, hne2, happ, hdev, if_true, ne_eq, not_false_eq_true]

theorem buildTopic_ignores_deviceName_witness :
    (⟨"1", "AA", "node"⟩ : uplinkMessage).ApplicationID = (⟨"1", "AA", "other"⟩ : uplinkMessage).ApplicationID
    ∧ (⟨"1", "AA", "node"⟩ : uplinkMessage).DevEUI ≠ ""
    ∧ buildTopic "/lora/" ⟨"1", "AA", "node"⟩ = buildTopic "/lora/" ⟨"1", "AA", "other"⟩ :=
  ⟨rfl, by decide,
    buildTopic_ignores_deviceName "/lora/" ⟨"1", "AA", "node"⟩ ⟨"1", "AA", "other"⟩ rfl rfl
      (by decide)⟩

/-! ## Lemmas: decoding a JSON object into the envelope -/

theorem uplinkEnvelope.get_set (env : uplinkEnvelope) (f g : EnvField) (s : String) :
    (env.set f s).get g = if g = f then s else env.get g := by
  cases f <;> cases g <;> simp [uplinkEnvelope.get, uplinkEnvelope.set]

theorem decodeMember_get (st : uplinkEnvelope × Option GoError) (m : String × json.Value)
    (f : EnvField) :
    (json.decodeMember st m).1.get f
      = ((if json.fieldByName m.1 = some f then m.2.string? else none).getD (st.1.get f)) := by
  obtain ⟨k, v⟩ := m
  unfold json.decodeMember
  cases hk : json.fieldByName k with
  | none => simp
  | some g =>
    by_cases hg : g = f
    · subst hg
      cases v <;> simp [json.Value.string?, uplinkEnvelope.get_set] <;>
        (cases st.2 <;> simp)
    · have hg2 : ¬ f = g := fun h => hg h.symm
      cases v <;> simp [json.Value.string?, uplinkEnvelope.get_set, hg, hg2] <;>
        (cases st.2 <;> simp)

theorem getLast?_cons_getD {α : Type} (a d : α) (l : List α) :
    ((a :: l).getLast?).getD d = (l.getLast?).getD a := by
  cases l with
  | nil => rfl
  | cons b t =>
    rw [List.getLast?_cons_cons]
    cases h : (b :: t).getLast? with
    | none => simp at h
    | some x => rfl

theorem foldl_decodeMember_get (members : List (String × json.Value))
    (st : uplinkEnvelope × Option GoError) (f : EnvField) :
    (members.foldl json.decodeMember st).1.get f
      = ((members.filterMap
            (fun m => if json.fieldByName m.1 = some f then m.2.string? else none)).getLast?).getD
          (st.1.get f) := by
  induction members generalizing st with
  | nil => simp
  | cons m ms ih =>
    rw [List.foldl_cons, ih, decodeMember_get, List.filterMap_cons]
    cases h : (if json.fieldByName m.1 = some f then m.2.string? else none) with
    | none => simp
    | some s => simp [getLast?_cons_getD]

theorem decodeMember_err (st : uplinkEnvelope × Option GoError) (m : String × json.Value) :
    (json.decodeMember st m).2 = none
      ↔ st.2 = none ∧
        ((json.fieldByName m.1).isSome &&
          (match m.2 with
            | .string _ => false
            | .null => false
            | _ => true)) = false := by
  obtain ⟨k, v⟩ := m
  unfold json.decodeMember
  cases hk : json.fieldByName k with
  | none => simp
  | some g => cases v <;> simp <;> (cases st.2 <;> simp)

theorem foldl_decodeMember_err (members : List (String × json.Value))
    (st : uplinkEnvelope × Option GoError) :
    (members.foldl json.decodeMember st).2 = none
      ↔ st.2 = none ∧ json.typeMismatch (.object members) = false := by
  induction members generalizing st with
  | nil => simp [json.typeMismatch]
  | cons m ms ih =>
    rw [List.foldl_cons, ih, decodeMember_err]
    simp only [json.typeMismatch, List.any_cons, Bool.or_eq_false_iff]
    tauto

theorem decodeValue_err (v : json.Value) (env : uplinkEnvelope) :
    (json.decodeValue v env).2 = none ↔ json.typeMismatch v = false := by
  cases v with
  | object members => simp [json.decodeValue, foldl_decodeMember_err]
  | _ => simp [json.decodeValue, json.typeMismatch]

theorem decodeValue_object_get (members : List (String × json.Value)) (f : EnvField) :
    (json.decodeValue (.object members) uplinkEnvelope.zero).1.get f = fieldString members f := by
  simp only [json.decodeValue, foldl_decodeMember_get, fieldString]
  cases f <;> rfl

theorem firstNonEmpty_eq_firstNonBlank (values : List String) :
    firstNonEmpty values = firstNonBlank values := by
  induction values with
  | nil => rfl
  | cons v vs ih =>
    by_cases h : strings.TrimSpace v = ""
    · simp [firstNonEmpty, firstNonBlank, h, List.find?_cons] at ih ⊢
      exact ih
    · simp [firstNonEmpty, firstNonBlank, h, List.find?_cons]

/-- What `decodeUplink` returns, in terms of what `json.Unmarshal` leaves. -/
theorem decodeUplink_eq (rt : GoRuntime) (body : List UInt8) :
    decodeUplink rt body
      = match (json.Unmarshal rt body uplinkEnvelope.zero).2 with
        | some err => .error (fmt.ErrorfW "invalid uplink payload: " err)
        | none =>
          if (normalised rt (json.Unmarshal rt body uplinkEnvelope.zero).1).ApplicationID = ""
              ∧ (normalised rt (json.Unmarshal rt body uplinkEnvelope.zero).1).DevEUI = "" then
            .error (errors.New "uplink payload missing identifiers")
          else .ok (normalised rt (json.Unmarshal rt body uplinkEnvelope.zero).1) := by
  unfold decodeUplink
  rcases h : json.Unmarshal rt body uplinkEnvelope.zero with ⟨env, _ | err⟩
  · simp only [normalised]
  · simp only

theorem decodeUplink_ok_iff (rt : GoRuntime) (body : List UInt8) (msg : uplinkMessage) :
    decodeUplink rt body = .ok msg
      ↔ (json.Unmarshal rt body uplinkEnvelope.zero).2 = none
        ∧ msg = normalised rt (json.Unmarshal rt body uplinkEnvelope.zero).1
        ∧ ¬ (msg.ApplicationID = "" ∧ msg.DevEUI = "") := by
  rw [decodeUplink_eq]
  cases h : (json.Unmarshal rt body uplinkEnvelope.zero).2 with
  | some err => simp
  | none =>
    simp only [true_and]
    split_ifs with hc
    · constructor
      · intro h'; cases h'
      · rintro ⟨rfl, h2⟩; exact absurd hc h2
    · constructor
      · intro h'
        injection h' with h'
        subst h'
        exact ⟨rfl, hc⟩
      · rintro ⟨rfl, _⟩; rfl

theorem unmarshal_of_scan (rt : GoRuntime) (body : List UInt8) (v : json.Value)
    (hscan : rt.scanJSON body = .ok v) :
    json.Unmarshal rt body uplinkEnvelope.zero = json.decodeValue v uplinkEnvelope.zero := by
  simp only [json.Unmarshal, hscan]

theorem unmarshal_of_scan_error (rt : GoRuntime) (body : List UInt8) (e : GoError)
    (hscan : rt.scanJSON body = .error e) :
    json.Unmarshal rt body uplinkEnvelope.zero = (uplinkEnvelope.zero, some e) := by
  simp only [json.Unmarshal, hscan]

theorem normalised_object (rt : GoRuntime) (members : List (String × json.Value)) :
    normalised rt (json.decodeValue (.object members) uplinkEnvelope.zero).1
      = { ApplicationID :=
            firstNonBlank [fieldString members .ApplicationID,
              fieldString members .ApplicationIdAlt, fieldString members .ApplicationIDS]
          DevEUI :=
            strings.ToUpper rt.caseTable
              (firstNonBlank [fieldString members .DevEUI, fieldString members .DevEuiAlt,
                fieldString members .DevEUIS])
          DeviceName :=
            firstNonBlank [fieldString members .DeviceName,
              fieldString members .DeviceNameSnake] } := by
  simp only [normalised, firstNonEmpty_eq_firstNonBlank, ← decodeValue_object_get]
  rfl

theorem mem_all (f : EnvField) : f ∈ EnvField.all := by
  cases f <;> simp [EnvField.all]

theorem fieldByName_tag (f : EnvField) : json.fieldByName f.tag = some f := by
  cases f <;> rfl

theorem fieldByName_some (key : String) (f : EnvField) (h : json.fieldByName key = some f) :
    f.tag = key ∨ ((∀ g : EnvField, g.tag ≠ key) ∧ json.foldName f.tag = json.foldName key) := by
  unfold json.fieldByName at h
  cases h1 : EnvField.all.find? (fun f => decide (f.tag = key)) with
  | some g =>
    rw [h1] at h
    simp only [Option.some.injEq] at h
    subst h
    left
    simpa using List.find?_some h1
  | none =>
    rw [h1] at h
    right
    refine ⟨?_, by simpa using List.find?_some h⟩
    intro g
    have := List.find?_eq_none.1 h1 g (mem_all g)
    simpa using this

/-- When no key of the object is a case variant of a spelling, the value matched to a
field is the value under the field's tag read literally. -/
theorem fieldString_eq_memberString (members : List (String × json.Value))
    (hexact : ∀ m ∈ members, ∀ f : EnvField,
      json.foldName f.tag = json.foldName m.1 → ∃ g : EnvField, g.tag = m.1)
    (f : EnvField) :
    fieldString members f = memberString members f.tag := by
  unfold fieldString memberString
  congr 2
  apply List.filterMap_congr
  intro m hm
  by_cases hk : m.1 = f.tag
  · rw [if_pos hk, hk, fieldByName_tag, if_pos rfl]
  · rw [if_neg hk]
    by_cases hf : json.fieldByName m.1 = some f
    · exfalso
      rcases fieldByName_some m.1 f hf with h | ⟨hnone, hfold⟩
      · exact hk h.symm
      · obtain ⟨g, hg⟩ := hexact m hm f hfold
        exact hnone g hg
    · rw [if_neg hf]

theorem toNat_ofNat_of_lt (n : Nat) (h : n < 0xD800) : (Char.ofNat n).toNat = n := by
  have hv : n.isValidChar := Or.inl h
  unfold Char.ofNat
  rw [dif_pos hv]
  rfl

theorem ToUpper_idempotent (caseTable : Char → Char)
    (hidem : ∀ c : Char,
      unicode.ToUpper caseTable (unicode.ToUpper caseTable c) = unicode.ToUpper caseTable c)
    (s : String) :
    strings.ToUpper caseTable (strings.ToUpper caseTable s) = strings.ToUpper caseTable s := by
  unfold strings.ToUpper
  simp only [List.map_map]
  congr 1
  apply List.map_congr_left
  intro c _
  exact hidem c

theorem ToUpper_not_lower (caseTable : Char → Char)
    (hidem : ∀ c : Char,
      unicode.ToUpper caseTable (unicode.ToUpper caseTable c) = unicode.ToUpper caseTable c)
    (c : Char) :
    ¬ (0x61 ≤ (unicode.ToUpper caseTable c).toNat ∧ (unicode.ToUpper caseTable c).toNat ≤ 0x7A) := by
  intro hlow
  have h := hidem c
  have hascii : (unicode.ToUpper caseTable c).toNat ≤ 0x7F := by omega
  have hstep : unicode.ToUpper caseTable (unicode.ToUpper caseTable c)
      = Char.ofNat ((unicode.ToUpper caseTable c).toNat - 0x20) := by
    generalize unicode.ToUpper caseTable c = u at hlow hascii
    unfold unicode.ToUpper
    rw [if_pos hascii, if_pos hlow]
  rw [hstep] at h
  have h2 := congrArg Char.toNat h
  rw [toNat_ofNat_of_lt _ (by omega)] at h2
  omega

theorem ToUpper_id_idempotent (c : Char) :
    unicode.ToUpper id (unicode.ToUpper id c) = unicode.ToUpper id c := by
  by_cases hascii : c.toNat ≤ 0x7F
  · by_cases hlow : 0x61 ≤ c.toNat ∧ c.toNat ≤ 0x7A
    · have hu : unicode.ToUpper id c = Char.ofNat (c.toNat - 0x20) := by
        unfold unicode.ToUpper
        rw [if_pos hascii, if_pos hlow]
      have hn : (Char.ofNat (c.toNat - 0x20)).toNat = c.toNat - 0x20 :=
        toNat_ofNat_of_lt _ (by omega)
      rw [hu]
      unfold unicode.ToUpper
      rw [hn, if_pos (by omega), if_neg (by omega)]
    · have hu : unicode.ToUpper id c = c := by
        unfold unicode.ToUpper
        rw [if_pos hascii, if_neg hlow]
      rw [hu, hu]
  · have hu : unicode.ToUpper id c = c := by
      unfold unicode.ToUpper
      rw [if_neg hascii]
      rfl
    rw [hu, hu]

/-! ## Decoding an uplink -/

/-- C1 (amended): for every JSON object body that `decodeUplink` accepts, ApplicationID
is the value of the first of the spellings applicationID, applicationId, application_id
(in that order) whose value is not blank, DeviceName the first non-blank of deviceName,
device_name, and DevEUI the upper-casing of the first non-blank of devEUI, devEui,
dev_eui, with the empty string when every spelling is absent or blank. The value of a
spelling is the string of the last member whose key encoding/json matches to it
(`fieldString`): a key equal to the spelling, or a key equal to no spelling that equals
this one ignoring letter case, the first such spelling in declaration order being taken
(so the key APPLICATIONID counts for applicationID). When no key of the object is a case
variant of a spelling, this is the value under the spelling read literally. -/
theorem decodeUplink_fields (rt : GoRuntime) (body : List UInt8)
    (members : List (String × json.Value)) (msg : uplinkMessage)
    (hscan : rt.scanJSON body = .ok (.object members))
    (hok : decodeUplink rt body = .ok msg) :
    msg.ApplicationID
        = firstNonBlank [fieldString members .ApplicationID,
            fieldString members .ApplicationIdAlt, fieldString members .ApplicationIDS]
    ∧ msg.DeviceName
        = firstNonBlank [fieldString members .DeviceName, fieldString members .DeviceNameSnake]
    ∧ msg.DevEUI
        = strings.ToUpper rt.caseTable
            (firstNonBlank [fieldString members .DevEUI, fieldString members .DevEuiAlt,
              fieldString members .DevEUIS])
    ∧ ((∀ m ∈ members, ∀ f : EnvField,
          json.foldName f.tag = json.foldName m.1 → ∃ g : EnvField, g.tag = m.1)
        → ∀ f : EnvField, fieldString members f = memberString members f.tag)
    ∧ json.fieldByName "APPLICATIONID" = some .ApplicationID := by
  obtain ⟨_, hmsg, _⟩ := (decodeUplink_ok_iff rt body msg).1 hok
  rw [unmarshal_of_scan rt body _ hscan, normalised_object] at hmsg
  subst hmsg
  exact ⟨rfl, rfl, rfl, fun hexact f => fieldString_eq_memberString members hexact f, rfl⟩

theorem decodeUplink_fields_witness :
    decodeUplink exampleRuntime
        (asciiBytes "\x7b\"applicationId\":\"17\",\"dev_eui\":\"AABBCC\",\"device_name\":\"node\"\x7d")
      = .ok ⟨"17", "AABBCC", "node"⟩
    ∧ (⟨"17", "AABBCC", "node"⟩ : uplinkMessage).ApplicationID
        = firstNonBlank
            [fieldString [("applicationId", .string "17"), ("dev_eui", .string "AABBCC"),
                ("device_name", .string "node")] .ApplicationID,
              fieldString [("applicationId", .string "17"), ("dev_eui", .string "AABBCC"),
                ("device_name", .string "node")] .ApplicationIdAlt,
              fieldString [("applicationId", .string "17"), ("dev_eui", .string "AABBCC"),
                ("device_name", .string "node")] .ApplicationIDS] :=
  ⟨rfl,
    (decodeUplink_fields exampleRuntime
      (asciiBytes "\x7b\"applicationId\":\"17\",\"dev_eui\":\"AABBCC\",\"device_name\":\"node\"\x7d")
      [("applicationId", .string "17"), ("dev_eui", .string "AABBCC"),
        ("device_name", .string "node")]
      ⟨"17", "AABBCC", "node"⟩ rfl rfl).1⟩

/-- C1 as stated fails: the body `{"APPLICATIONID":"7","devEUI":"AA"}` is accepted and
decodes to ApplicationID "7", although none of the keys applicationID, applicationId,
application_id is present, so that the first non-blank value under these keys is the
empty string. -/
theorem decodeUplink_case_variant_key :
    exampleRuntime.scanJSON (asciiBytes "\x7b\"APPLICATIONID\":\"7\",\"devEUI\":\"AA\"\x7d")
      = .ok (.object [("APPLICATIONID", .string "7"), ("devEUI", .string "AA")])
    ∧ decodeUplink exampleRuntime (asciiBytes "\x7b\"APPLICATIONID\":\"7\",\"devEUI\":\"AA\"\x7d")
      = .ok ⟨"7", "AA", ""⟩
    ∧ firstNonBlank
        [memberString [("APPLICATIONID", .string "7"), ("devEUI", .string "AA")] "applicationID",
          memberString [("APPLICATIONID", .string "7"), ("devEUI", .string "AA")] "applicationId",
          memberString [("APPLICATIONID", .string "7"), ("devEUI", .string "AA")] "application_id"]
        = ""
    ∧ (⟨"7", "AA", ""⟩ : uplinkMessage).ApplicationID ≠ "" :=
  ⟨rfl, rfl, rfl, by decide⟩

/-- C2 (amended): `decodeUplink(body)` returns an error if and only if body is not valid
JSON, or body is valid JSON that encoding/json cannot store in the envelope (its value is
neither an object nor `null`, or a member whose key is matched to a field of the envelope
has a value that is neither a string nor `null`), or the normalised applicationID and the
normalised devEUI are both empty. -/
theorem decodeUplink_error_iff (rt : GoRuntime) (body : List UInt8) :
    (∃ e, decodeUplink rt body = .error e)
      ↔ ((∃ e, rt.scanJSON body = .error e)
          ∨ (∃ v, rt.scanJSON body = .ok v ∧ json.typeMismatch v = true)
          ∨ ((normalised rt (json.Unmarshal rt body uplinkEnvelope.zero).1).ApplicationID = ""
              ∧ (normalised rt (json.Unmarshal rt body uplinkEnvelope.zero).1).DevEUI = "")) := by
  rw [decodeUplink_eq]
  cases hscan : rt.scanJSON body with
  | error e =>
    rw [unmarshal_of_scan_error rt body e hscan]
    simp
  | ok v =>
    rw [unmarshal_of_scan rt body v hscan]
    cases herr : (json.decodeValue v uplinkEnvelope.zero).2 with
    | some err =>
      have hm : json.typeMismatch v = true := by
        cases hmm : json.typeMismatch v with
        | true => rfl
        | false =>
          rw [(decodeValue_err v uplinkEnvelope.zero).2 hmm] at herr
          cases herr
      simp [hm]
    | none =>
      have hm : json.typeMismatch v = false := (decodeValue_err v uplinkEnvelope.zero).1 herr
      simp only [hm, false_and, exists_false, false_or, Bool.false_eq_true, and_false,
        Except.ok.injEq, exists_eq_left']
      split_ifs with hc
      · simp [hc]
      · simp [hc]

/-- C2 as stated fails: the body `{"applicationID":5,"devEUI":"AA"}` is valid JSON and its
normalised devEUI is "AA", yet `decodeUplink` returns an error, because the number 5
cannot be stored in the string field applicationID. -/
theorem decodeUplink_rejects_valid_json :
    ¬ ((∃ e, decodeUplink exampleRuntime
            (asciiBytes "\x7b\"applicationID\":5,\"devEUI\":\"AA\"\x7d") = .error e)
        ↔ ((∃ e, exampleRuntime.scanJSON
              (asciiBytes "\x7b\"applicationID\":5,\"devEUI\":\"AA\"\x7d") = .error e)
            ∨ ((normalised exampleRuntime
                  (json.Unmarshal exampleRuntime
                    (asciiBytes "\x7b\"applicationID\":5,\"devEUI\":\"AA\"\x7d")
                    uplinkEnvelope.zero).1).ApplicationID = ""
                ∧ (normalised exampleRuntime
                  (json.Unmarshal exampleRuntime
                    (asciiBytes "\x7b\"applicationID\":5,\"devEUI\":\"AA\"\x7d")
                    uplinkEnvelope.zero).1).DevEUI = ""))) := by
  intro h
  have hscan : exampleRuntime.scanJSON
      (asciiBytes "\x7b\"applicationID\":5,\"devEUI\":\"AA\"\x7d")
      = .ok (.object [("applicationID", .number "5"), ("devEUI", .string "AA")]) := rfl
  have hdev : (normalised exampleRuntime
      (json.Unmarshal exampleRuntime
        (asciiBytes "\x7b\"applicationID\":5,\"devEUI\":\"AA\"\x7d")
        uplinkEnvelope.zero).1).DevEUI = "AA" := rfl
  rcases h.1 ⟨_, rfl⟩ with ⟨e, he⟩ | ⟨_, hd⟩
  · rw [hscan] at he
    cases he
  · rw [hdev] at hd
    exact absurd hd (by decide)

/-- C3: whenever `decodeUplink` succeeds, the returned message has a non-empty
ApplicationID or a non-empty DevEUI. A device name alone does not satisfy the check: an
object whose keys are matched to no field other than the two device-name fields, and that
encoding/json can store, is rejected with the missing-identifiers error; so are the bodies
`{"deviceName":"node"}` and `{"data":"AQ=="}`. -/
theorem decodeUplink_requires_identifier (rt : GoRuntime) (body : List UInt8) :
    (∀ msg, decodeUplink rt body = .ok msg → msg.ApplicationID ≠ "" ∨ msg.DevEUI ≠ "")
    ∧ (∀ members, rt.scanJSON body = .ok (.object members) →
        json.typeMismatch (.object members) = false →
        (∀ m ∈ members, json.fieldByName m.1 = none ∨ json.fieldByName m.1 = some .DeviceName
          ∨ json.fieldByName m.1 = some .DeviceNameSnake) →
        decodeUplink rt body = .error (errors.New "uplink payload missing identifiers"))
    ∧ (rt.scanJSON body = .ok (.object [("deviceName", .string "node")]) →
        decodeUplink rt body = .error (errors.New "uplink payload missing identifiers"))
    ∧ (rt.scanJSON body = .ok (.object [("data", .string "AQ==")]) →
        decodeUplink rt body = .error (errors.New "uplink payload missing identifiers")) := by
  have key : ∀ members, rt.scanJSON body = .ok (.object members) →
      json.typeMismatch (.object members) = false →
      (∀ m ∈ members, json.fieldByName m.1 = none ∨ json.fieldByName m.1 = some .DeviceName
        ∨ json.fieldByName m.1 = some .DeviceNameSnake) →
      decodeUplink rt body = .error (errors.New "uplink payload missing identifiers") := by
    intro members hscan hmm hkeys
    have hempty : ∀ f : EnvField, f ≠ .DeviceName → f ≠ .DeviceNameSnake →
        fieldString members f = "" := by
      intro f h1 h2
      unfold fieldString
      have : members.filterMap
          (fun m => if json.fieldByName m.1 = some f then m.2.string? else none) = [] := by
        rw [List.filterMap_eq_nil_iff]
        intro m hm
        rcases hkeys m hm with h | h | h <;> rw [h]
        · simp
        · rw [if_neg]; intro hc; exact h1 (Option.some.inj hc).symm
        · rw [if_neg]; intro hc; exact h2 (Option.some.inj hc).symm
      rw [this]
      rfl
    rw [decodeUplink_eq, unmarshal_of_scan rt body _ hscan,
      (decodeValue_err _ uplinkEnvelope.zero).2 hmm, normalised_object]
    simp only [hempty .ApplicationID (by decide) (by decide),
      hempty .ApplicationIdAlt (by decide) (by decide),
      hempty .ApplicationIDS (by decide) (by decide),
      hempty .DevEUI (by decide) (by decide), hempty .DevEuiAlt (by decide) (by decide),
      hempty .DevEUIS (by decide) (by decide)]
    have e1 : firstNonBlank ["", "", ""] = "" := by decide
    have e2 : strings.ToUpper rt.caseTable "" = "" := rfl
    rw [e1, e2]
    simp
  refine ⟨?_, key, ?_, ?_⟩
  · intro msg hok
    obtain ⟨_, _, hne⟩ := (decodeUplink_ok_iff rt body msg).1 hok
    by_contra hcon
    push_neg at hcon
    exact hne hcon
  · intro hscan
    exact key _ hscan (by decide) (by decide)
  · intro hscan
    exact key _ hscan (by decide) (by decide)

theorem decodeUplink_requires_identifier_witness :
    (decodeUplink exampleRuntime
        (asciiBytes "\x7b\"applicationId\":\"17\",\"dev_eui\":\"AABBCC\",\"device_name\":\"node\"\x7d")
      = .ok ⟨"17", "AABBCC", "node"⟩
      → (⟨"17", "AABBCC", "node"⟩ : uplinkMessage).ApplicationID ≠ ""
        ∨ (⟨"17", "AABBCC", "node"⟩ : uplinkMessage).DevEUI ≠ "")
    ∧ decodeUplink exampleRuntime (asciiBytes "\x7b\"deviceName\":\"node\"\x7d")
        = .error (errors.New "uplink payload missing identifiers")
    ∧ decodeUplink exampleRuntime (asciiBytes "\x7b\"data\":\"AQ==\"\x7d")
        = .error (errors.New "uplink payload missing identifiers") :=
  ⟨(decodeUplink_requires_identifier exampleRuntime
      (asciiBytes "\x7b\"applicationId\":\"17\",\"dev_eui\":\"AABBCC\",\"device_name\":\"node\"\x7d")).1
      ⟨"17", "AABBCC", "node"⟩,
    (decodeUplink_requires_identifier exampleRuntime
      (asciiBytes "\x7b\"deviceName\":\"node\"\x7d")).2.2.1 rfl,
    (decodeUplink_requires_identifier exampleRuntime
      (asciiBytes "\x7b\"data\":\"AQ==\"\x7d")).2.2.2 rfl⟩

/-- C4: for every body that `decodeUplink` accepts, the returned DevEUI is the
upper-casing of the selected input value (the first non-blank of the three devEUI slots of
the envelope) whatever its case; it is unchanged by upper-casing again and contains no
letter a..z, the upper-case mapping of the Unicode tables being idempotent. E.g.
`"dev_eui":"aabbcc"` yields DevEUI "AABBCC". -/
theorem decodeUplink_devEUI_upper (rt : GoRuntime) (body : List UInt8) (msg : uplinkMessage)
    (hidem : ∀ c : Char,
      unicode.ToUpper rt.caseTable (unicode.ToUpper rt.caseTable c)
        = unicode.ToUpper rt.caseTable c)
    (hok : decodeUplink rt body = .ok msg) :
    msg.DevEUI
        = strings.ToUpper rt.caseTable
            (firstNonBlank
              [(json.Unmarshal rt body uplinkEnvelope.zero).1.DevEUI,
                (json.Unmarshal rt body uplinkEnvelope.zero).1.DevEuiAlt,
                (json.Unmarshal rt body uplinkEnvelope.zero).1.DevEUIS])
    ∧ strings.ToUpper rt.caseTable msg.DevEUI = msg.DevEUI
    ∧ (∀ c ∈ msg.DevEUI.data, ¬ (0x61 ≤ c.toNat ∧ c.toNat ≤ 0x7A))
    ∧ (rt.scanJSON body = .ok (.object [("dev_eui", .string "aabbcc")]) →
        msg.DevEUI = "AABBCC") := by
  obtain ⟨_, hmsg, _⟩ := (decodeUplink_ok_iff rt body msg).1 hok
  have hdev : msg.DevEUI
      = strings.ToUpper rt.caseTable
          (firstNonBlank
            [(json.Unmarshal rt body uplinkEnvelope.zero).1.DevEUI,
              (json.Unmarshal rt body uplinkEnvelope.zero).1.DevEuiAlt,
              (json.Unmarshal rt body uplinkEnvelope.zero).1.DevEUIS]) := by
    rw [hmsg]
    simp only [normalised, firstNonEmpty_eq_firstNonBlank]
  refine ⟨hdev, ?_, ?_, ?_⟩
  · rw [hdev]
    exact ToUpper_idempotent rt.caseTable hidem _
  · intro c hc
    rw [hdev] at hc
    simp only [strings.ToUpper, List.mem_map] at hc
    obtain ⟨c0, _, rfl⟩ := hc
    exact ToUpper_not_lower rt.caseTable hidem c0
  · intro hscan
    rw [hdev, unmarshal_of_scan rt body _ hscan]
    rfl

theorem decodeUplink_devEUI_upper_witness :
    (∀ c : Char,
      unicode.ToUpper exampleRuntime.caseTable (unicode.ToUpper exampleRuntime.caseTable c)
        = unicode.ToUpper exampleRuntime.caseTable c)
    ∧ decodeUplink exampleRuntime (asciiBytes "\x7b\"dev_eui\":\"aabbcc\"\x7d")
        = .ok ⟨"", "AABBCC", ""⟩
    ∧ strings.ToUpper exampleRuntime.caseTable (⟨"", "AABBCC", ""⟩ : uplinkMessage).DevEUI
        = (⟨"", "AABBCC", ""⟩ : uplinkMessage).DevEUI :=
  ⟨ToUpper_id_idempotent, rfl,
    (decodeUplink_devEUI_upper exampleRuntime (asciiBytes "\x7b\"dev_eui\":\"aabbcc\"\x7d")
      ⟨"", "AABBCC", ""⟩ ToUpper_id_idempotent rfl).2.1⟩

/-! ## The request pipeline -/

theorem readAllMaxBytes_ok (n : Int) (body : List UInt8) (h : (body.length : Int) ≤ max n 0) :
    http.readAllMaxBytes n body = .ok body := by
  unfold http.readAllMaxBytes
  rw [if_pos h]

/-- C7: for every non-empty request body of at most MaxBodySize bytes that `decodeUplink`
accepts, when the publisher's `Publish` returns no error, the uplink handler calls
`Publish` exactly once, with the topic `buildTopic(base topic, decoded message)` and the
original body bytes as payload, and responds with status 202 and the JSON object
`{"status":"forwarded"}`. -/
theorem uplink_forwards (rt : GoRuntime) (h : Handler) (r : http.Request) (msg : uplinkMessage)
    (hne : r.Body ≠ [])
    (hsize : (r.Body.length : Int) ≤ h.cfg.MaxBodySize)
    (hdec : decodeUplink rt r.Body = .ok msg)
    (hpub : h.publisher.Publish r.Context (buildTopic h.cfg.MagistralaMQTTBaseTopic msg) r.Body
      = none) :
    (h.uplink rt r).published
        = [⟨r.Context, buildTopic h.cfg.MagistralaMQTTBaseTopic msg, r.Body⟩]
    ∧ (h.uplink rt r).response.status = 202
    ∧ (h.uplink rt r).response.payload = some [("status", "forwarded")] := by
  have hlen : r.Body.length ≠ 0 := fun h0 => hne (List.length_eq_zero.1 h0)
  have hread := readAllMaxBytes_ok h.cfg.MaxBodySize r.Body (le_trans hsize (le_max_left _ _))
  unfold Handler.uplink
  simp only [hread, hlen, if_false, hdec, hpub]
  simp [writeJSON, http.StatusAccepted]

theorem uplink_forwards_witness :
    (asciiBytes "\x7b\"applicationId\":\"17\",\"dev_eui\":\"AABBCC\",\"device_name\":\"node\"\x7d")
        ≠ []
    ∧ ((Handler.mk acceptingPublisher exampleConfig true).uplink exampleRuntime
        ⟨asciiBytes
          "\x7b\"applicationId\":\"17\",\"dev_eui\":\"AABBCC\",\"device_name\":\"node\"\x7d",
          backgroundContext⟩).published
        = [⟨backgroundContext, "lora/17/AABBCC/up",
            asciiBytes
              "\x7b\"applicationId\":\"17\",\"dev_eui\":\"AABBCC\",\"device_name\":\"node\"\x7d"⟩]
    ∧ ((Handler.mk acceptingPublisher exampleConfig true).uplink exampleRuntime
        ⟨asciiBytes
          "\x7b\"applicationId\":\"17\",\"dev_eui\":\"AABBCC\",\"device_name\":\"node\"\x7d",
          backgroundContext⟩).response.status = 202 :=
  have h := uplink_forwards exampleRuntime (Handler.mk acceptingPublisher exampleConfig true)
    ⟨asciiBytes "\x7b\"applicationId\":\"17\",\"dev_eui\":\"AABBCC\",\"device_name\":\"node\"\x7d",
      backgroundContext⟩
    ⟨"17", "AABBCC", "node"⟩ (by decide) (by decide) rfl rfl
  ⟨by decide, h.1, h.2.1⟩

/-- C8: the uplink handler responds 413 when the body is longer than MaxBodySize (a size,
so not negative), 400 with an `{"error": ...}` object when the body is empty or
`decodeUplink` rejects it, and in none of these three cases calls `Publish`; when decoding
succeeds but `Publish` returns an error it responds 502 with an `{"error": ...}` object
carrying that error's message. -/
theorem uplink_error_responses (rt : GoRuntime) (h : Handler) (r : http.Request) :
    (0 ≤ h.cfg.MaxBodySize → h.cfg.MaxBodySize < (r.Body.length : Int) →
        (h.uplink rt r).response.status = 413
        ∧ (∃ text, (h.uplink rt r).response.payload = some [("error", text)])
        ∧ (h.uplink rt r).published = [])
    ∧ (r.Body = [] →
        (h.uplink rt r).response.status = 400
        ∧ (h.uplink rt r).response.payload = some [("error", "empty request body")]
        ∧ (h.uplink rt r).published = [])
    ∧ (∀ err, (r.Body.length : Int) ≤ h.cfg.MaxBodySize → decodeUplink rt r.Body = .error err →
        (h.uplink rt r).response.status = 400
        ∧ (h.uplink rt r).response.payload
            = some [("error", if r.Body = [] then "empty request body" else err.Error)]
        ∧ (h.uplink rt r).published = [])
    ∧ (∀ msg err, r.Body ≠ [] → (r.Body.length : Int) ≤ h.cfg.MaxBodySize →
        decodeUplink rt r.Body = .ok msg →
        h.publisher.Publish r.Context (buildTopic h.cfg.MagistralaMQTTBaseTopic msg) r.Body
          = some err →
        (h.uplink rt r).response.status = 502
        ∧ (h.uplink rt r).response.payload = some [("error", err.Error)]
        ∧ (h.uplink rt r).published
            = [⟨r.Context, buildTopic h.cfg.MagistralaMQTTBaseTopic msg, r.Body⟩]) := by
  refine ⟨?_, ?_, ?_, ?_⟩
  · intro h0 hlong
    have hread : http.readAllMaxBytes h.cfg.MaxBodySize r.Body
        = .error (GoError.new "http: request body too large") := by
      unfold http.readAllMaxBytes
      rw [if_neg]
      rw [max_eq_left h0]
      omega
    unfold Handler.uplink
    simp only [hread]
    simp [writeError, writeJSON, http.StatusRequestEntityTooLarge]
  · intro hempty
    have hread : http.readAllMaxBytes h.cfg.MaxBodySize [] = .ok [] :=
      readAllMaxBytes_ok h.cfg.MaxBodySize [] (by simp)
    unfold Handler.uplink
    simp only [hempty, hread]
    simp [writeError, writeJSON, http.StatusBadRequest, errors.New, GoError.Error]
  · intro err hsize hdec
    have hread := readAllMaxBytes_ok h.cfg.MaxBodySize r.Body (le_trans hsize (le_max_left _ _))
    unfold Handler.uplink
    simp only [hread]
    by_cases hempty : r.Body = []
    · simp [hempty, writeError, writeJSON, http.StatusBadRequest, errors.New, GoError.Error]
    · have hlen : r.Body.length ≠ 0 := fun h0 => hempty (List.length_eq_zero.1 h0)
      simp only [hlen, if_false, hdec, hempty]
      simp [writeError, writeJSON, http.StatusBadRequest]
  · intro msg err hne hsize hdec hpub
    have hlen : r.Body.length ≠ 0 := fun h0 => hne (List.length_eq_zero.1 h0)
    have hread := readAllMaxBytes_ok h.cfg.MaxBodySize r.Body (le_trans hsize (le_max_left _ _))
    unfold Handler.uplink
    simp only [hread, hlen, if_false, hdec, hpub]
    simp [writeError, writeJSON, http.StatusBadGateway]

theorem uplink_error_responses_witness :
    ((Handler.mk failingPublisher { exampleConfig with MaxBodySize := 8 } true).uplink
        exampleRuntime
        ⟨asciiBytes "\x7b\"data\":\"AQ==\"\x7d", backgroundContext⟩).response.status = 413
    ∧ ((Handler.mk failingPublisher exampleConfig true).uplink exampleRuntime
        ⟨[], backgroundContext⟩).response.status = 400
    ∧ ((Handler.mk failingPublisher exampleConfig true).uplink exampleRuntime
        ⟨asciiBytes "\x7b\"data\":\"AQ==\"\x7d", backgroundContext⟩).response.payload
        = some [("error", "uplink payload missing identifiers")]
    ∧ ((Handler.mk failingPublisher exampleConfig true).uplink exampleRuntime
        ⟨asciiBytes "\x7b\"dev_eui\":\"aabbcc\"\x7d", backgroundContext⟩).response
        = ⟨[("Content-Type", "application/json")], 502,
            some [("error", "mqtt client is not connected")]⟩ :=
  ⟨((uplink_error_responses exampleRuntime
        (Handler.mk failingPublisher { exampleConfig with MaxBodySize := 8 } true)
        ⟨asciiBytes "\x7b\"data\":\"AQ==\"\x7d", backgroundContext⟩).1
      (by decide) (by decide)).1,
    ((uplink_error_responses exampleRuntime (Handler.mk failingPublisher exampleConfig true)
        ⟨[], backgroundContext⟩).2.1 rfl).1,
    ((uplink_error_responses exampleRuntime (Handler.mk failingPublisher exampleConfig true)
        ⟨asciiBytes "\x7b\"data\":\"AQ==\"\x7d", backgroundContext⟩).2.2.1
      (errors.New "uplink payload missing identifiers") (by decide) rfl).2.1,
    rfl⟩

/-! ## Publishing -/

theorem Publish_calls (now : Int) (p : mqttPublisher) (ctx : context.Context)
    (topic : String) (payload : List UInt8) (hconn : p.client.IsConnected = true) :
    (p.Publish now ctx topic payload).2
      = [mqtt.Call.publish topic 0 false payload,
          mqtt.Call.waitTimeout
            (match ctx.Deadline with
              | some deadline =>
                if time.Until now deadline > 0 ∧ time.Until now deadline < p.timeout then
                  time.Until now deadline
                else p.timeout
              | none => p.timeout)] := by
  unfold mqttPublisher.Publish
  simp only [hconn, not_true_eq_false, if_false]
  split_ifs <;> (split <;> rfl)

/-- C9 (amended): for every configured publish timeout and every caller context whose
deadline lies in the future, the wait bound `Publish` uses for the publish token equals
min(configured publish timeout, remaining time until the caller's context deadline); for a
context without a deadline, and for a context whose deadline has been reached or has
passed, it equals the configured publish timeout. -/
theorem Publish_wait_bound (now : Int) (p : mqttPublisher) (ctx : context.Context)
    (topic : String) (payload : List UInt8)
    (hconn : p.client.IsConnected = true) (hrange : p.timeout ≤ time.maxDuration) :
    (p.Publish now ctx topic payload).2
      = [mqtt.Call.publish topic 0 false payload,
          mqtt.Call.waitTimeout
            (match ctx.Deadline with
              | some deadline =>
                if 0 < deadline - now then min p.timeout (deadline - now) else p.timeout
              | none => p.timeout)] := by
  rw [Publish_calls now p ctx topic payload hconn]
  cases ctx.Deadline with
  | none => rfl
  | some deadline =>
    simp only [List.cons.injEq, mqtt.Call.waitTimeout.injEq, and_true, true_and]
    unfold time.Until time.minDuration
    unfold time.maxDuration at hrange ⊢
    simp only [min_def, max_def]
    split_ifs <;> omega

theorem Publish_wait_bound_witness :
    connectedClient.IsConnected = true
    ∧ ((mqttPublisher.mk connectedClient (5 * time.Second)).Publish 1000000000
          ⟨some 3000000000, none⟩ "lora/1/AA/up" [1, 2, 3]).2
        = [mqtt.Call.publish "lora/1/AA/up" 0 false [1, 2, 3], mqtt.Call.waitTimeout 2000000000] :=
  ⟨rfl,
    Publish_wait_bound 1000000000 (mqttPublisher.mk connectedClient (5 * time.Second))
      ⟨some 3000000000, none⟩ "lora/1/AA/up" [1, 2, 3] rfl (by decide)⟩

/-- C9 as stated fails: with a publish timeout of 5 s and a caller context whose deadline
passed 1 ms ago, the remaining time is -1 ms and min(5 s, -1 ms) = -1 ms, but `Publish`
waits for 5 s. -/
theorem Publish_wait_bound_passed_deadline :
    ((mqttPublisher.mk connectedClient (5 * time.Second)).Publish 1000000
          ⟨some 0, some (GoError.new "context deadline exceeded")⟩ "lora/1/AA/up" [1, 2, 3]).2
        = [mqtt.Call.publish "lora/1/AA/up" 0 false [1, 2, 3], mqtt.Call.waitTimeout 5000000000]
    ∧ time.Until 1000000 0 = -1000000
    ∧ min (5 * time.Second) (time.Until 1000000 0) ≠ 5000000000 := by
  refine ⟨rfl, by decide, by decide⟩

/-- C10: whenever the MQTT client reports that it is not connected, `Publish` returns the
error "mqtt client is not connected" at once: nothing is handed to the client (no message
is published or queued) and no wait is performed, for every context, topic and payload. -/
theorem Publish_not_connected (now : Int) (p : mqttPublisher) (ctx : context.Context)
    (topic : String) (payload : List UInt8) (hconn : p.client.IsConnected = false) :
    p.Publish now ctx topic payload = (some (fmt.Errorf "mqtt client is not connected"), [])
    ∧ (p.Publish now ctx topic payload).2 = [] := by
  unfold mqttPublisher.Publish
  simp [hconn]

theorem Publish_not_connected_witness :
    disconnectedClient.IsConnected = false
    ∧ (mqttPublisher.mk disconnectedClient (5 * time.Second)).Publish 0 backgroundContext
          "lora/1/AA/up" [1, 2, 3]
        = (some (GoError.new "mqtt client is not connected"), []) :=
  ⟨rfl,
    (Publish_not_connected 0 (mqttPublisher.mk disconnectedClient (5 * time.Second))
      backgroundContext "lora/1/AA/up" [1, 2, 3] rfl).1⟩

/-- The calls `Publish` makes on a connected client: one publish with QoS 0 and
retain=false, then one wait bounded by `waitBound`. -/
theorem Publish_calls_waitBound (now : Int) (p : mqttPublisher) (ctx : context.Context)
    (topic : String) (payload : List UInt8) (hconn : p.client.IsConnected = true) :
    (p.Publish now ctx topic payload).2
      = [mqtt.Call.publish topic 0 false payload,
          mqtt.Call.waitTimeout (waitBound now p ctx)] := by
  rw [Publish_calls now p ctx topic payload hconn]
  rfl

theorem Publish_result (now : Int) (p : mqttPublisher) (ctx : context.Context)
    (topic : String) (payload : List UInt8) (hconn : p.client.IsConnected = true) :
    (p.Publish now ctx topic payload).1
      = if (p.client.Publish topic 0 false payload).WaitTimeout (waitBound now p ctx) = false then
          match ctx.Err with
          | some err => some (fmt.ErrorfW "publish cancelled: " err)
          | none =>
            some (fmt.Errorf ("publishing to topic " ++ topic ++ " timed out after "
              ++ time.Duration.String (waitBound now p ctx)))
        else
          match (p.client.Publish topic 0 false payload).Error with
          | some err => some (fmt.ErrorfW "publish error: " err)
          | none => none := by
  unfold mqttPublisher.Publish waitBound
  simp only [hconn, not_true_eq_false, if_false]
  cases hd : ctx.Deadline <;> simp only [] <;>
    (split_ifs <;> first | rfl | (split <;> rfl) | simp_all)

/-- C14: on a connected client, when the publish wait elapses without the token
resolving, `Publish` returns the error "publish cancelled: ..." wrapping the context's
error exactly when the caller's context error is non-nil, and otherwise a distinct error
"publishing to topic <topic> timed out after <wait bound>" that wraps nothing; when the
wait resolves, `Publish` returns nil if the token carries no error and the error
"publish error: ..." wrapping the token's error otherwise. -/
theorem Publish_outcome (now : Int) (p : mqttPublisher) (ctx : context.Context)
    (topic : String) (payload : List UInt8) (hconn : p.client.IsConnected = true) :
    ((p.client.Publish topic 0 false payload).WaitTimeout (waitBound now p ctx) = false →
      (∀ err, ctx.Err = some err →
        (p.Publish now ctx topic payload).1
          = some (GoError.wrap ("publish cancelled: " ++ err.Error) err))
      ∧ (ctx.Err = none →
        (p.Publish now ctx topic payload).1
            = some (GoError.new ("publishing to topic " ++ topic ++ " timed out after "
                ++ time.Duration.String (waitBound now p ctx)))
        ∧ ∀ err : GoError, (p.Publish now ctx topic payload).1
            ≠ some (GoError.wrap ("publish cancelled: " ++ err.Error) err))
      ∧ ((∃ err, (p.Publish now ctx topic payload).1
            = some (GoError.wrap ("publish cancelled: " ++ err.Error) err))
          ↔ ctx.Err ≠ none))
    ∧ ((p.client.Publish topic 0 false payload).WaitTimeout (waitBound now p ctx) = true →
      (∀ err, (p.client.Publish topic 0 false payload).Error = some err →
        (p.Publish now ctx topic payload).1
          = some (GoError.wrap ("publish error: " ++ err.Error) err))
      ∧ ((p.client.Publish topic 0 false payload).Error = none →
        (p.Publish now ctx topic payload).1 = none)) := by
  rw [Publish_result now p ctx topic payload hconn]
  constructor
  · intro hw
    rw [if_pos hw]
    cases hctx : ctx.Err with
    | none => simp [fmt.Errorf]
    | some e => simp [fmt.ErrorfW]
  · intro hw
    rw [if_neg (by simp [hw])]
    cases htok : (p.client.Publish topic 0 false payload).Error with
    | none => simp
    | some e => simp [fmt.ErrorfW]

theorem Publish_outcome_witness :
    stalledClient.IsConnected = true
    ∧ ((mqttPublisher.mk stalledClient (5 * time.Second)).Publish 0
          ⟨some 2000000000, some (GoError.new "context deadline exceeded")⟩
          "lora/1/AA/up" [1, 2, 3]).1
        = some (GoError.wrap "publish cancelled: context deadline exceeded"
            (GoError.new "context deadline exceeded"))
    ∧ ((mqttPublisher.mk stalledClient (5 * time.Second)).Publish 0 backgroundContext
          "lora/1/AA/up" [1, 2, 3]).1
        = some (GoError.new "publishing to topic lora/1/AA/up timed out after 5s") :=
  ⟨rfl,
    ((Publish_outcome 0 (mqttPublisher.mk stalledClient (5 * time.Second))
        ⟨some 2000000000, some (GoError.new "context deadline exceeded")⟩
        "lora/1/AA/up" [1, 2, 3] rfl).1 rfl).1 (GoError.new "context deadline exceeded") rfl,
    rfl⟩

theorem buildTopic_eq_intercalate (base : String) (msg : uplinkMessage) :
    buildTopic base msg
      = "/".intercalate
          ([strings.Trim base "/"]
            ++ optionalSegment msg.ApplicationID
            ++ (if msg.DevEUI ≠ "" then [msg.DevEUI] else optionalSegment msg.DeviceName)
            ++ ["up"]) := by
  unfold buildTopic
  simp only [Join_eq_intercalate, optionalSegment]
  by_cases h1 : msg.ApplicationID = "" <;> by_cases h2 : msg.DevEUI = "" <;>
    by_cases h3 : msg.DeviceName = "" <;> simp [h1, h2, h3]

/-- C15: `buildTopic` does not escape "/" inside segment values, so it is not injective:
under every base topic the two distinct messages with ApplicationID "a/B" and no DevEUI,
and with ApplicationID "a" and DevEUI "B" (both without DeviceName), get the same topic;
under the base "lora" it is "lora/a/B/up". -/
theorem buildTopic_not_injective :
    (⟨"a/B", "", ""⟩ : uplinkMessage) ≠ ⟨"a", "B", ""⟩
    ∧ (∀ base : String, buildTopic base ⟨"a/B", "", ""⟩ = buildTopic base ⟨"a", "B", ""⟩)
    ∧ buildTopic "lora" ⟨"a/B", "", ""⟩ = "lora/a/B/up"
    ∧ buildTopic "lora" ⟨"a", "B", ""⟩ = "lora/a/B/up"
    ∧ ∀ base : String, ¬ Function.Injective (buildTopic base) := by
  have hne : (⟨"a/B", "", ""⟩ : uplinkMessage) ≠ ⟨"a", "B", ""⟩ := by decide
  have heq : ∀ base : String,
      buildTopic base ⟨"a/B", "", ""⟩ = buildTopic base ⟨"a", "B", ""⟩ := by
    intro base
    rw [buildTopic_eq_intercalate base _, buildTopic_eq_intercalate base _]
    apply String.ext
    simp [optionalSegment, String.intercalate, String.intercalate.go, String.data_append]
  exact ⟨hne, heq, by decide, by decide, fun base hinj => hne (hinj (heq base))⟩

/-- C17: for every publisher with a positive configured timeout and every caller context
(no deadline, a future deadline, or a deadline already passed), the wait bound `Publish`
uses is strictly positive and never greater than the configured publish timeout; and every
publisher that `NewMQTTPublisher` returns has a positive timeout, the default of 5 s
replacing a configured timeout that is not positive. -/
theorem Publish_wait_bound_positive (now : Int) (p : mqttPublisher) (ctx : context.Context)
    (hpos : 0 < p.timeout) :
    0 < waitBound now p ctx
    ∧ waitBound now p ctx ≤ p.timeout
    ∧ (∀ topic payload, p.client.IsConnected = true →
        (p.Publish now ctx topic payload).2
          = [mqtt.Call.publish topic 0 false payload,
              mqtt.Call.waitTimeout (waitBound now p ctx)])
    ∧ (∀ (lib : GoNetLib) (randRead : Nat → Option (List UInt8))
        (connect : mqtt.ClientOptions → mqtt.Client × Option GoError) (cfg : Config)
        (q : mqttPublisher),
        (NewMQTTPublisher lib randRead connect cfg).1 = .ok q →
          0 < q.timeout
          ∧ q.timeout
              = if 0 < cfg.MagistralaMQTTPublishTimeout then cfg.MagistralaMQTTPublishTimeout
                else 5 * time.Second) := by
  refine ⟨?_, ?_, fun topic payload hconn => Publish_calls_waitBound now p ctx topic payload hconn,
    ?_⟩
  · unfold waitBound
    cases ctx.Deadline with
    | none => exact hpos
    | some deadline =>
      simp only []
      split_ifs with h
      · exact h.1
      · exact hpos
  · unfold waitBound
    cases ctx.Deadline with
    | none => exact le_refl _
    | some deadline =>
      simp only []
      split_ifs with h
      · exact le_of_lt h.2
      · exact le_refl _
  · intro lib randRead connect cfg q hq
    unfold NewMQTTPublisher at hq
    cases hurl : parseMQTTURL lib cfg.MagistralaMQTTURL with
    | error err => rw [hurl] at hq; simp at hq
    | ok u =>
      rw [hurl] at hq
      simp only [] at hq
      split at hq
      · simp at hq
      · simp only [Except.ok.injEq] at hq
        subst hq
        have hT : (if cfg.MagistralaMQTTClientID = "" then
            { cfg with MagistralaMQTTClientID := "lora-adapter-" ++ randomSuffix randRead 6 }
            else cfg).MagistralaMQTTPublishTimeout = cfg.MagistralaMQTTPublishTimeout := by
          split_ifs <;> rfl
        simp only [gt_iff_lt, defaultPublishTimeout, hT]
        refine ⟨?_, trivial⟩
        split_ifs with ht
        · exact ht
        · decide

theorem Publish_wait_bound_positive_witness :
    (0 : Int) < (mqttPublisher.mk connectedClient (5 * time.Second)).timeout
    ∧ 0 < waitBound 1000000 (mqttPublisher.mk connectedClient (5 * time.Second)) ⟨some 0, none⟩
    ∧ waitBound 1000000 (mqttPublisher.mk connectedClient (5 * time.Second)) ⟨some 0, none⟩
        = 5000000000 :=
  ⟨by decide,
    (Publish_wait_bound_positive 1000000 (mqttPublisher.mk connectedClient (5 * time.Second))
      ⟨some 0, none⟩ (by decide)).1,
    by decide⟩

/-! ## Lemmas: paths and prefixes -/

theorem HasPrefix_slash (s : String) :
    strings.HasPrefix s "/" = true ↔ s.data.head? = some '/' := by
  unfold strings.HasPrefix
  show List.isPrefixOf ['/'] s.data = true ↔ _
  cases s.data with
  | nil => simp [List.isPrefixOf]
  | cons c cs =>
    simp only [List.isPrefixOf, Bool.and_true, beq_iff_eq, List.head?_cons, Option.some.injEq]
    exact eq_comm

theorem HasSuffix_slash (s : String) :
    strings.HasSuffix s "/" = true ↔ s.data.getLast? = some '/' := by
  unfold strings.HasSuffix
  show List.isPrefixOf ['/'] s.data.reverse = true ↔ _
  rw [← List.head?_reverse]
  cases s.data.reverse with
  | nil => simp [List.isPrefixOf]
  | cons c cs =>
    simp only [List.isPrefixOf, Bool.and_true, beq_iff_eq, List.head?_cons, Option.some.injEq]
    exact eq_comm

theorem TrimRight_slash_data (s : String) :
    (strings.TrimRight s "/").data = (s.data.reverse.dropWhile (fun c => c == '/')).reverse := by
  have h : (fun c : Char => ("/" : String).data.contains c) = (fun c => c == '/') := by
    funext c
    show List.elem c ['/'] = (c == '/')
    simp only [List.elem]
    cases c == '/' <;> rfl
  simp only [strings.TrimRight, h]

theorem dropWhile_eq_self_of_head (l : List Char) (h : l.head? ≠ some '/') :
    l.dropWhile (fun c => c == '/') = l := by
  cases l with
  | nil => rfl
  | cons c cs =>
    have hc : ¬ c = '/' := fun e => h (by rw [e]; rfl)
    simp [List.dropWhile_cons, hc]

theorem Trim_slash_idempotent (s : String) :
    strings.Trim (strings.Trim s "/") "/" = strings.Trim s "/" := by
  obtain ⟨_, hhead, hlast⟩ := Trim_slash_spec s
  apply String.ext
  rw [Trim_slash_data (strings.Trim s "/")]
  rw [dropWhile_eq_self_of_head _ hhead]
  rw [dropWhile_eq_self_of_head _ (by rw [List.head?_reverse]; exact hlast)]
  exact List.reverse_reverse _

theorem data_ne_nil_of_ne_empty (s : String) (h : s ≠ "") : s.data ≠ [] := by
  intro hd
  exact h (String.ext hd)

/-- A path that `sanitizePath` returns starts with "/" and, unless it is "/" itself, does
not end with "/". -/
theorem sanitizePath_spec (path : String) :
    (sanitizePath path).data.head? = some '/'
    ∧ (sanitizePath path = "/" ∨ (sanitizePath path).data.getLast? ≠ some '/') := by
  unfold sanitizePath
  by_cases h0 : path = ""
  · rw [if_pos h0]
    exact ⟨by decide, Or.inr (by decide)⟩
  · rw [if_neg h0]
    simp only []
    set q : String := if ¬ strings.HasPrefix path "/" = true then "/" ++ path else path with hq
    have hqhead : q.data.head? = some '/' := by
      rw [hq]
      split_ifs with hp
      · exact (HasPrefix_slash path).1 hp
      · simp [String.data_append]
    by_cases hc : q ≠ "/" ∧ strings.HasSuffix q "/" = true
    · rw [if_pos hc]
      by_cases ht : strings.TrimRight q "/" = ""
      · rw [if_pos ht]
        exact ⟨rfl, Or.inl rfl⟩
      · rw [if_neg ht]
        have hdata := TrimRight_slash_data q
        have hne : (strings.TrimRight q "/").data ≠ [] := data_ne_nil_of_ne_empty _ ht
        constructor
        · -- the trimmed path is a non-empty initial part of `q`
          obtain ⟨n, hn, _⟩ := dropWhile_decompose (fun c => c == '/') q.data.reverse
          have hqd : q.data = (strings.TrimRight q "/").data ++ (q.data.reverse.take n).reverse := by
            have := congrArg List.reverse hn
            rw [hdata]
            simpa using this
          cases hd : (strings.TrimRight q "/").data with
          | nil => exact absurd hd hne
          | cons c cs =>
            rw [hd] at hqd
            rw [hqd] at hqhead
            simpa using hqhead
        · right
          rw [hdata, List.getLast?_reverse]
          intro hl
          have := dropWhile_head_ne (fun c => c == '/') q.data.reverse '/' hl
          simp at this
    · rw [if_neg hc]
      refine ⟨hqhead, ?_⟩
      by_cases hq1 : q = "/"
      · exact Or.inl hq1
      · right
        intro hl
        exact hc ⟨hq1, (HasSuffix_slash q).2 hl⟩

/-- A path that starts with "/" and, unless it is "/" itself, does not end with "/" is
left as it is by `sanitizePath`. -/
theorem sanitizePath_fixed (path : String) (hhead : path.data.head? = some '/')
    (hlast : path = "/" ∨ path.data.getLast? ≠ some '/') : sanitizePath path = path := by
  have h0 : path ≠ "" := by
    intro h
    rw [h] at hhead
    exact absurd hhead (by decide)
  have hp : strings.HasPrefix path "/" = true := (HasPrefix_slash path).2 hhead
  unfold sanitizePath
  rw [if_neg h0]
  simp only [hp, not_true_eq_false, if_false]
  rw [if_neg]
  rintro ⟨h1, h2⟩
  rcases hlast with h | h
  · exact h1 h
  · exact h ((HasSuffix_slash path).1 h2)

theorem sanitizePath_idempotent (path : String) :
    sanitizePath (sanitizePath path) = sanitizePath path :=
  sanitizePath_fixed _ (sanitizePath_spec path).1 (sanitizePath_spec path).2

/-! ## Lemmas: `Config.Validate` -/

theorem sanitizePath_HasPrefix (path : String) :
    strings.HasPrefix (sanitizePath path) "/" = true :=
  (HasPrefix_slash _).2 (sanitizePath_spec path).1

/-- When `Validate` returns no error, and what configuration it then leaves. -/
theorem Validate_accepts_iff (lib : GoNetLib) (cfg : Config) :
    ((Config.Validate lib cfg).2 = none ↔ Config.acceptable lib cfg)
    ∧ ((Config.Validate lib cfg).2 = none → (Config.Validate lib cfg).1 = cfg.normalised) := by
  unfold Config.Validate Config.acceptable Config.normalised
  by_cases hb : strings.TrimSpace cfg.HTTPPort = ""
  · simp only [hb, if_true]
    cases hA : strconv.Atoi lib.quote "8080" with
    | error e => simp
    | ok n =>
      simp only [sanitizePath_HasPrefix, not_true_eq_false, if_false]
      by_cases h1 : cfg.MaxBodySize ≤ 0
      · simp [h1, not_lt.2 h1]
      · simp only [h1, if_false]
        by_cases h2 : strings.Trim cfg.MagistralaMQTTBaseTopic "/" = ""
        · simp [h2]
        · simp only [h2, if_false]
          cases hU : parseMQTTURL lib cfg.MagistralaMQTTURL with
          | error e => simp
          | ok u =>
            simp only []
            by_cases h3 : cfg.MagistralaMQTTPublishTimeout ≤ 0
            · simp [h3, not_lt.2 h3]
            · simp only [h3, if_false]
              split_ifs with h4
              · simp [h4]
              · simp [h4, not_le.1 h1, not_le.1 h3, h2]
  · simp only [hb, if_false]
    cases hA : strconv.Atoi lib.quote cfg.HTTPPort with
    | error e => simp
    | ok n =>
      simp only [sanitizePath_HasPrefix, not_true_eq_false, if_false]
      by_cases h1 : cfg.MaxBodySize ≤ 0
      · simp [h1, not_lt.2 h1]
      · simp only [h1, if_false]
        by_cases h2 : strings.Trim cfg.MagistralaMQTTBaseTopic "/" = ""
        · simp [h2]
        · simp only [h2, if_false]
          cases hU : parseMQTTURL lib cfg.MagistralaMQTTURL with
          | error e => simp
          | ok u =>
            simp only []
            by_cases h3 : cfg.MagistralaMQTTPublishTimeout ≤ 0
            · simp [h3, not_lt.2 h3]
            · simp only [h3, if_false]
              split_ifs with h4
              · simp [h4]
              · simp [h4, not_le.1 h1, not_le.1 h3, h2]

theorem Validate_error_path_independent (lib : GoNetLib) (cfg : Config) (path : String) :
    (Config.Validate lib { cfg with UplinkPath := path }).2 = (Config.Validate lib cfg).2 := by
  unfold Config.Validate
  by_cases hb : strings.TrimSpace cfg.HTTPPort = ""
  · simp only [hb, if_true]
    cases hA : strconv.Atoi lib.quote "8080" with
    | error e => rfl
    | ok n =>
      simp only [sanitizePath_HasPrefix, not_true_eq_false, if_false]
      by_cases h1 : cfg.MaxBodySize ≤ 0
      · simp only [h1, if_true]
      · simp only [h1, if_false]
        by_cases h2 : strings.Trim cfg.MagistralaMQTTBaseTopic "/" = ""
        · simp only [h2, if_true]
        · simp only [h2, if_false]
          cases hU : parseMQTTURL lib cfg.MagistralaMQTTURL with
          | error e => rfl
          | ok u =>
            simp only []
            by_cases h3 : cfg.MagistralaMQTTPublishTimeout ≤ 0
            · simp only [h3, if_true]
            · simp only [h3, if_false]
              split_ifs <;> rfl
  · simp only [hb, if_false]
    cases hA : strconv.Atoi lib.quote cfg.HTTPPort with
    | error e => rfl
    | ok n =>
      simp only [sanitizePath_HasPrefix, not_true_eq_false, if_false]
      by_cases h1 : cfg.MaxBodySize ≤ 0
      · simp only [h1, if_true]
      · simp only [h1, if_false]
        by_cases h2 : strings.Trim cfg.MagistralaMQTTBaseTopic "/" = ""
        · simp only [h2, if_true]
        · simp only [h2, if_false]
          cases hU : parseMQTTURL lib cfg.MagistralaMQTTURL with
          | error e => rfl
          | ok u =>
            simp only []
            by_cases h3 : cfg.MagistralaMQTTPublishTimeout ≤ 0
            · simp only [h3, if_true]
            · simp only [h3, if_false]
              split_ifs <;> rfl

/-! ## Validation of the configuration -/

/-- C12 (amended): `Config.Validate` never rejects a configuration for its uplink path.
It replaces the path by `sanitizePath(path)`, which starts with "/" for every path (a path
without leading "/" gets one, the empty path becomes "/uplink"), so the error that
`Validate` returns, if any, is the same whatever the uplink path is, and an accepted
configuration holds the sanitised path; e.g. the path "uplink" becomes "/uplink". -/
theorem Validate_uplink_path (lib : GoNetLib) (cfg : Config) :
    strings.HasPrefix (sanitizePath cfg.UplinkPath) "/" = true
    ∧ (∀ path : String,
        (Config.Validate lib { cfg with UplinkPath := path }).2 = (Config.Validate lib cfg).2)
    ∧ ((Config.Validate lib cfg).2 = none →
        (Config.Validate lib cfg).1.UplinkPath = sanitizePath cfg.UplinkPath)
    ∧ sanitizePath "uplink" = "/uplink"
    ∧ sanitizePath "" = "/uplink" := by
  refine ⟨sanitizePath_HasPrefix _, Validate_error_path_independent lib cfg, ?_, by decide,
    by decide⟩
  intro h
  rw [(Validate_accepts_iff lib cfg).2 h]
  rfl

theorem Validate_uplink_path_witness :
    (Config.Validate exampleNetLib { exampleConfig with UplinkPath := "uplink" }).2 = none
    ∧ (Config.Validate exampleNetLib { exampleConfig with UplinkPath := "uplink" }).1.UplinkPath
        = sanitizePath "uplink" :=
  ⟨rfl,
    (Validate_uplink_path exampleNetLib { exampleConfig with UplinkPath := "uplink" }).2.2.1 rfl⟩

/-- C12 as stated fails: the configuration of the defaults with the uplink path "uplink",
which does not start with "/", is accepted by `Validate`, which leaves it with the path
"/uplink". -/
theorem Validate_accepts_path_without_slash :
    strings.HasPrefix "uplink" "/" = false
    ∧ Config.Validate exampleNetLib { exampleConfig with UplinkPath := "uplink" }
        = ({ exampleConfig with UplinkPath := "/uplink" }, none) :=
  ⟨by decide, rfl⟩

theorem isDigit_eq (c : Char) : c.isDigit = decide (0x30 ≤ c.toNat ∧ c.toNat ≤ 0x39) := by
  unfold Char.isDigit
  rw [Bool.eq_iff_iff]
  simp only [Bool.and_eq_true, decide_eq_true_eq, ge_iff_le]
  rw [UInt32.le_def, UInt32.le_def]
  rfl

theorem parseUintLoop_error_of_not_all (digits : List Char) (n : Nat)
    (h : digits.all Char.isDigit = false) : ∃ b, strconv.parseUintLoop digits n = .error b := by
  induction digits generalizing n with
  | nil => simp at h
  | cons c cs ih =>
    unfold strconv.parseUintLoop
    by_cases hc : 0x30 ≤ c.toNat ∧ c.toNat ≤ 0x39
    · have hd : c.isDigit = true := by rw [isDigit_eq]; exact decide_eq_true hc
      have hcs : cs.all Char.isDigit = false := by
        rw [List.all_cons, hd, Bool.true_and] at h
        exact h
      rw [if_neg (not_not.2 hc)]
      split_ifs
      · exact ⟨true, rfl⟩
      · exact ⟨true, rfl⟩
      · exact ih _ hcs
    · rw [if_pos hc]
      exact ⟨false, rfl⟩

theorem Atoi_error_of_not_numeric (quote : String → String) (s : String)
    (h : numericPort s = false) : ∃ e, strconv.Atoi quote s = .error e := by
  unfold numericPort at h
  simp only [Bool.and_eq_false_iff, Bool.not_eq_false', List.isEmpty_iff] at h
  have key : ∀ (d : List Char) (f : Nat → Except GoError Int) (e₁ e₂ : GoError),
      (d = [] ∨ d.all Char.isDigit = false) →
      ∃ e, (if d = [] then (Except.error e₁ : Except GoError Int)
            else
              match strconv.parseUintLoop d 0 with
              | .error false => .error e₁
              | .error true => .error e₂
              | .ok un => f un) = .error e := by
    intro d f e₁ e₂ hd
    by_cases h0 : d = []
    · rw [if_pos h0]
      exact ⟨_, rfl⟩
    · rw [if_neg h0]
      obtain ⟨b, hb⟩ := parseUintLoop_error_of_not_all d 0 (hd.resolve_left h0)
      rw [hb]
      cases b
      · exact ⟨_, rfl⟩
      · exact ⟨_, rfl⟩
  exact key _ _ _ _ h

theorem parseMQTTURL_blank (lib : GoNetLib) (raw : String) (h : strings.TrimSpace raw = "") :
    parseMQTTURL lib raw = .error (errors.New "magistrala MQTT URL must not be empty") := by
  unfold parseMQTTURL
  rw [if_pos h]

theorem parseMQTTURL_ok (lib : GoNetLib) (raw : String) (u : url.URL)
    (h : parseMQTTURL lib raw = .ok u) :
    strings.TrimSpace raw ≠ "" ∧ lib.urlParse raw = .ok u
    ∧ strings.ToLower lib.lowerTable u.Scheme ∈ ["mqtt", "tcp", "ssl", "tls", "ws", "wss"]
    ∧ u.Host ≠ "" := by
  unfold parseMQTTURL at h
  by_cases hb : strings.TrimSpace raw = ""
  · rw [if_pos hb] at h; cases h
  · rw [if_neg hb] at h
    cases hp : lib.urlParse raw with
    | error e => rw [hp] at h; cases h
    | ok v =>
      rw [hp] at h
      simp only [] at h
      by_cases hs : strings.ToLower lib.lowerTable v.Scheme ∈ ["mqtt", "tcp", "ssl", "tls", "ws", "wss"]
      · rw [if_pos hs] at h
        by_cases hh : v.Host = ""
        · rw [if_pos hh] at h; cases h
        · rw [if_neg hh] at h
          injection h with h
          subst h
          exact ⟨hb, rfl, hs, hh⟩
      · rw [if_neg hs] at h; cases h

/-- C13 (amended): `Config.Validate` returns an error for every configuration that has a
non-numeric HTTP port that is not blank (a blank port is replaced by "8080"), a max body
size that is zero or negative, a base topic that is empty after trimming "/", a broker URL
that is empty, blank, rejected by `url.Parse`, without host or with a scheme outside the
allow-list {mqtt, tcp, ssl, tls, ws, wss}, or a publish timeout that is zero or negative. -/
theorem Validate_rejects (lib : GoNetLib) (cfg : Config) :
    (strings.TrimSpace cfg.HTTPPort ≠ "" → numericPort cfg.HTTPPort = false →
        (Config.Validate lib cfg).2 ≠ none)
    ∧ (cfg.MaxBodySize ≤ 0 → (Config.Validate lib cfg).2 ≠ none)
    ∧ (strings.Trim cfg.MagistralaMQTTBaseTopic "/" = "" → (Config.Validate lib cfg).2 ≠ none)
    ∧ (cfg.MagistralaMQTTURL = "" → (Config.Validate lib cfg).2 ≠ none)
    ∧ (strings.TrimSpace cfg.MagistralaMQTTURL = "" → (Config.Validate lib cfg).2 ≠ none)
    ∧ (∀ err, lib.urlParse cfg.MagistralaMQTTURL = .error err →
        (Config.Validate lib cfg).2 ≠ none)
    ∧ (∀ u, lib.urlParse cfg.MagistralaMQTTURL = .ok u → u.Host = "" →
        (Config.Validate lib cfg).2 ≠ none)
    ∧ (∀ u, lib.urlParse cfg.MagistralaMQTTURL = .ok u →
        strings.ToLower lib.lowerTable u.Scheme ∉ ["mqtt", "tcp", "ssl", "tls", "ws", "wss"] →
        (Config.Validate lib cfg).2 ≠ none)
    ∧ (cfg.MagistralaMQTTPublishTimeout ≤ 0 → (Config.Validate lib cfg).2 ≠ none) := by
  have key : (Config.Validate lib cfg).2 = none → Config.acceptable lib cfg :=
    (Validate_accepts_iff lib cfg).1.1
  refine ⟨?_, ?_, ?_, ?_, ?_, ?_, ?_, ?_, ?_⟩
  · intro hb hn hv
    obtain ⟨⟨n, hA⟩, _⟩ := key hv
    rw [if_neg hb] at hA
    obtain ⟨e, he⟩ := Atoi_error_of_not_numeric lib.quote cfg.HTTPPort hn
    rw [he] at hA
    cases hA
  · intro h hv
    exact absurd (key hv).2.1 (not_lt.2 h)
  · intro h hv
    exact (key hv).2.2.1 h
  · intro h hv
    obtain ⟨u, hu⟩ := (key hv).2.2.2.1
    exact (parseMQTTURL_ok lib _ u hu).1 (by rw [h]; decide)
  · intro h hv
    obtain ⟨u, hu⟩ := (key hv).2.2.2.1
    exact (parseMQTTURL_ok lib _ u hu).1 h
  · intro err h hv
    obtain ⟨u, hu⟩ := (key hv).2.2.2.1
    have := (parseMQTTURL_ok lib _ u hu).2.1
    rw [h] at this
    cases this
  · intro u h hhost hv
    obtain ⟨v, hv2⟩ := (key hv).2.2.2.1
    obtain ⟨_, hp, _, hne⟩ := parseMQTTURL_ok lib _ v hv2
    rw [h] at hp
    injection hp with hp
    subst hp
    exact hne hhost
  · intro u h hs hv
    obtain ⟨v, hv2⟩ := (key hv).2.2.2.1
    obtain ⟨_, hp, hmem, _⟩ := parseMQTTURL_ok lib _ v hv2
    rw [h] at hp
    injection hp with hp
    subst hp
    exact hs hmem
  · intro h hv
    exact absurd (key hv).2.2.2.2.1 (not_lt.2 h)

theorem Validate_rejects_witness :
    (Config.Validate exampleNetLib { exampleConfig with HTTPPort := "http" }).2 ≠ none
    ∧ (Config.Validate exampleNetLib { exampleConfig with MaxBodySize := 0 }).2 ≠ none
    ∧ (Config.Validate exampleNetLib { exampleConfig with MagistralaMQTTBaseTopic := "//" }).2
        ≠ none
    ∧ (Config.Validate exampleNetLib
        { exampleConfig with MagistralaMQTTURL := "mqtts://broker:8883" }).2 ≠ none
    ∧ (Config.Validate exampleNetLib { exampleConfig with MagistralaMQTTPublishTimeout := 0 }).2
        ≠ none :=
  ⟨(Validate_rejects exampleNetLib { exampleConfig with HTTPPort := "http" }).1
      (by decide) (by decide),
    (Validate_rejects exampleNetLib { exampleConfig with MaxBodySize := 0 }).2.1 (by decide),
    (Validate_rejects exampleNetLib
      { exampleConfig with MagistralaMQTTBaseTopic := "//" }).2.2.1 (by decide),
    (Validate_rejects exampleNetLib
      { exampleConfig with MagistralaMQTTURL := "mqtts://broker:8883" }).2.2.2.2.2.2.2.1
      ⟨"mqtts", "broker:8883", "mqtts://broker:8883"⟩ rfl (by decide),
    (Validate_rejects exampleNetLib
      { exampleConfig with MagistralaMQTTPublishTimeout := 0 }).2.2.2.2.2.2.2.2 (by decide)⟩

/-- C13 as stated fails: the blank port " " is not a number, yet the configuration of the
defaults with this port is accepted by `Validate`, which replaces the port by "8080". -/
theorem Validate_accepts_blank_port :
    numericPort " " = false
    ∧ (∃ e, strconv.Atoi exampleNetLib.quote " " = .error e)
    ∧ Config.Validate exampleNetLib { exampleConfig with HTTPPort := " " }
        = ({ exampleConfig with HTTPPort := "8080" }, none) :=
  ⟨by decide, ⟨_, rfl⟩, rfl⟩

theorem normalised_normalised (cfg : Config) : cfg.normalised.normalised = cfg.normalised := by
  have hport : (if strings.TrimSpace
        (if strings.TrimSpace cfg.HTTPPort = "" then "8080" else cfg.HTTPPort) = "" then "8080"
      else (if strings.TrimSpace cfg.HTTPPort = "" then "8080" else cfg.HTTPPort))
      = (if strings.TrimSpace cfg.HTTPPort = "" then "8080" else cfg.HTTPPort) := by
    by_cases hb : strings.TrimSpace cfg.HTTPPort = ""
    · simp only [hb, if_true]
      decide
    · simp only [hb, if_false]
  unfold Config.normalised
  simp only [hport, sanitizePath_idempotent, Trim_slash_idempotent]

theorem acceptable_normalised (lib : GoNetLib) (cfg : Config) (h : Config.acceptable lib cfg) :
    Config.acceptable lib cfg.normalised := by
  obtain ⟨h1, h2, h3, h4, h5, h6⟩ := h
  have hport : (if strings.TrimSpace
        (if strings.TrimSpace cfg.HTTPPort = "" then "8080" else cfg.HTTPPort) = "" then "8080"
      else (if strings.TrimSpace cfg.HTTPPort = "" then "8080" else cfg.HTTPPort))
      = (if strings.TrimSpace cfg.HTTPPort = "" then "8080" else cfg.HTTPPort) := by
    by_cases hb : strings.TrimSpace cfg.HTTPPort = ""
    · simp only [hb, if_true]
      decide
    · simp only [hb, if_false]
  unfold Config.acceptable Config.normalised
  simp only [hport, Trim_slash_idempotent]
  exact ⟨h1, h2, h3, h4, h5, h6⟩

/-- C18: `Config.Validate` is idempotent on accepted configurations: if `Validate` accepts
a configuration, leaving it with a blank port replaced by "8080", the uplink path passed
through `sanitizePath` and the base topic trimmed of "/", then `Validate` run again on the
resulting configuration accepts it too and leaves every field unchanged; in particular
`sanitizePath(sanitizePath(p)) = sanitizePath(p)` for every path `p`. -/
theorem Validate_idempotent (lib : GoNetLib) (cfg cfg' : Config)
    (h : Config.Validate lib cfg = (cfg', none)) :
    Config.Validate lib cfg' = (cfg', none)
    ∧ cfg' = cfg.normalised
    ∧ (∀ p : String, sanitizePath (sanitizePath p) = sanitizePath p)
    ∧ strings.Trim (strings.Trim cfg.MagistralaMQTTBaseTopic "/") "/"
        = strings.Trim cfg.MagistralaMQTTBaseTopic "/" := by
  have h2 : (Config.Validate lib cfg).2 = none := by rw [h]
  have hacc : Config.acceptable lib cfg := (Validate_accepts_iff lib cfg).1.1 h2
  have hcfg : cfg' = cfg.normalised := by
    have := (Validate_accepts_iff lib cfg).2 h2
    rw [h] at this
    exact this
  have hacc' : Config.acceptable lib cfg' := hcfg ▸ acceptable_normalised lib cfg hacc
  have hv2 : (Config.Validate lib cfg').2 = none := (Validate_accepts_iff lib cfg').1.2 hacc'
  have hv1 : (Config.Validate lib cfg').1 = cfg' := by
    rw [(Validate_accepts_iff lib cfg').2 hv2, hcfg, normalised_normalised]
  exact ⟨Prod.ext hv1 hv2, hcfg, sanitizePath_idempotent, Trim_slash_idempotent _⟩

theorem Validate_idempotent_witness :
    Config.Validate exampleNetLib
        { exampleConfig with HTTPPort := " ", UplinkPath := "uplink/", MagistralaMQTTBaseTopic := "/lora/" }
      = (exampleConfig, none)
    ∧ Config.Validate exampleNetLib exampleConfig = (exampleConfig, none) :=
  ⟨rfl,
    (Validate_idempotent exampleNetLib
      { exampleConfig with HTTPPort := " ", UplinkPath := "uplink/", MagistralaMQTTBaseTopic := "/lora/" }
      exampleConfig rfl).1⟩

/-! ## The topics of the request pipeline -/

theorem length_pos_of_ne_empty (s : String) (h : s ≠ "") : 0 < s.length := by
  have := data_ne_nil_of_ne_empty s h
  exact List.length_pos.2 this

/-- The four shapes of the topic of a message that has an ApplicationID or a DevEUI. -/
theorem buildTopic_shapes (base : String) (msg : uplinkMessage)
    (hid : msg.ApplicationID ≠ "" ∨ msg.DevEUI ≠ "") :
    (msg.ApplicationID ≠ "" ∧ msg.DevEUI ≠ ""
        ∧ buildTopic base msg
            = strings.Trim base "/" ++ "/" ++ msg.ApplicationID ++ "/" ++ msg.DevEUI ++ "/up")
    ∨ (msg.ApplicationID ≠ "" ∧ msg.DevEUI = "" ∧ msg.DeviceName ≠ ""
        ∧ buildTopic base msg
            = strings.Trim base "/" ++ "/" ++ msg.ApplicationID ++ "/" ++ msg.DeviceName ++ "/up")
    ∨ (msg.ApplicationID ≠ "" ∧ msg.DevEUI = "" ∧ msg.DeviceName = ""
        ∧ buildTopic base msg = strings.Trim base "/" ++ "/" ++ msg.ApplicationID ++ "/up")
    ∨ (msg.ApplicationID = "" ∧ msg.DevEUI ≠ ""
        ∧ buildTopic base msg = strings.Trim base "/" ++ "/" ++ msg.DevEUI ++ "/up") := by
  rw [buildTopic_eq_intercalate base msg]
  by_cases h1 : msg.ApplicationID = ""
  · by_cases h2 : msg.DevEUI = ""
    · rcases hid with h | h
      · exact absurd h1 h
      · exact absurd h2 h
    · refine Or.inr (Or.inr (Or.inr ⟨h1, h2, ?_⟩))
      apply String.ext
      simp [h1, h2, optionalSegment, String.intercalate, String.intercalate.go,
        String.data_append]
  · by_cases h2 : msg.DevEUI = ""
    · by_cases h3 : msg.DeviceName = ""
      · refine Or.inr (Or.inr (Or.inl ⟨h1, h2, h3, ?_⟩))
        apply String.ext
        simp [h1, h2, h3, optionalSegment, String.intercalate, String.intercalate.go,
          String.data_append]
      · refine Or.inr (Or.inl ⟨h1, h2, h3, ?_⟩)
        apply String.ext
        simp [h1, h2, h3, optionalSegment, String.intercalate, String.intercalate.go,
          String.data_append]
    · refine Or.inl ⟨h1, h2, ?_⟩
      apply String.ext
      simp [h1, h2, optionalSegment, String.intercalate, String.intercalate.go,
        String.data_append]

theorem topic_facts (b mid T : String) (hb : b ≠ "") (hbh : b.data.head? ≠ some '/')
    (hmid : mid ≠ "") (hT : T.data = b.data ++ '/' :: (mid.data ++ ['/', 'u', 'p'])) :
    (∃ rest, T.data = b.data ++ '/' :: rest)
    ∧ T.data.head? ≠ some '/'
    ∧ (∃ front, T.data = front ++ ['/', 'u', 'p'])
    ∧ T ≠ b ++ "/up" := by
  refine ⟨⟨_, hT⟩, ?_, ⟨b.data ++ '/' :: mid.data, by rw [hT]; simp⟩, ?_⟩
  · rw [hT]
    cases hd : b.data with
    | nil => exact absurd hd (data_ne_nil_of_ne_empty b hb)
    | cons c cs =>
      rw [hd] at hbh
      simpa using hbh
  · intro h
    have hlen := congrArg (fun s : String => s.data.length) h
    simp only [hT, String.data_append, List.length_append, List.length_cons] at hlen
    have := List.length_pos.2 (data_ne_nil_of_ne_empty mid hmid)
    have h3 : ("/up" : String).data.length = 3 := rfl
    simp only [h3, List.length_nil] at hlen
    omega

theorem append_ne_empty_left (a b : String) (h : a ≠ "") : a ++ b ≠ "" := by
  intro hab
  have := congrArg String.data hab
  rw [String.data_append] at this
  have h2 : a.data = [] := (List.append_eq_nil.1 this).1
  exact data_ne_nil_of_ne_empty a h h2

/-- C16: for every configuration that `Config.Validate` accepts and every message that
`decodeUplink` returns, the topic `buildTopic(validated base topic, message)` starts with
the non-empty base topic followed by "/" (so it never starts with "/"), ends with "/up",
and contains at least one identifier segment between them: it is never just "<base>/up",
and the device-name-only topic "<base>/<deviceName>/up", the topic of a message that has
neither ApplicationID nor DevEUI, is never produced by the request pipeline: the message
has an ApplicationID or a DevEUI and the segment after the base is one of the two. The
topic is "<base>/<app>/<eui>/up", "<base>/<app>/<name>/up", "<base>/<app>/up" or
"<base>/<eui>/up". -/
theorem pipeline_topic (lib : GoNetLib) (cfg cfg' : Config) (rt : GoRuntime)
    (body : List UInt8) (msg : uplinkMessage)
    (hval : Config.Validate lib cfg = (cfg', none))
    (hdec : decodeUplink rt body = .ok msg) :
    cfg'.MagistralaMQTTBaseTopic ≠ ""
    ∧ (∃ rest, (buildTopic cfg'.MagistralaMQTTBaseTopic msg).data
        = cfg'.MagistralaMQTTBaseTopic.data ++ '/' :: rest)
    ∧ (buildTopic cfg'.MagistralaMQTTBaseTopic msg).data.head? ≠ some '/'
    ∧ (∃ front, (buildTopic cfg'.MagistralaMQTTBaseTopic msg).data = front ++ ['/', 'u', 'p'])
    ∧ buildTopic cfg'.MagistralaMQTTBaseTopic msg ≠ cfg'.MagistralaMQTTBaseTopic ++ "/up"
    ∧ (msg.ApplicationID ≠ "" ∨ msg.DevEUI ≠ "")
    ∧ ((msg.ApplicationID ≠ "" ∧ msg.DevEUI ≠ ""
          ∧ buildTopic cfg'.MagistralaMQTTBaseTopic msg
              = cfg'.MagistralaMQTTBaseTopic ++ "/" ++ msg.ApplicationID ++ "/" ++ msg.DevEUI
                ++ "/up")
        ∨ (msg.ApplicationID ≠ "" ∧ msg.DevEUI = "" ∧ msg.DeviceName ≠ ""
          ∧ buildTopic cfg'.MagistralaMQTTBaseTopic msg
              = cfg'.MagistralaMQTTBaseTopic ++ "/" ++ msg.ApplicationID ++ "/"
                ++ msg.DeviceName ++ "/up")
        ∨ (msg.ApplicationID ≠ "" ∧ msg.DevEUI = "" ∧ msg.DeviceName = ""
          ∧ buildTopic cfg'.MagistralaMQTTBaseTopic msg
              = cfg'.MagistralaMQTTBaseTopic ++ "/" ++ msg.ApplicationID ++ "/up")
        ∨ (msg.ApplicationID = "" ∧ msg.DevEUI ≠ ""
          ∧ buildTopic cfg'.MagistralaMQTTBaseTopic msg
              = cfg'.MagistralaMQTTBaseTopic ++ "/" ++ msg.DevEUI ++ "/up")) := by
  have h2 : (Config.Validate lib cfg).2 = none := by rw [hval]
  have hacc : Config.acceptable lib cfg := (Validate_accepts_iff lib cfg).1.1 h2
  have hcfg : cfg' = cfg.normalised := by
    have := (Validate_accepts_iff lib cfg).2 h2
    rw [hval] at this
    exact this
  have hbase : cfg'.MagistralaMQTTBaseTopic = strings.Trim cfg.MagistralaMQTTBaseTopic "/" := by
    rw [hcfg]; rfl
  have hne : cfg'.MagistralaMQTTBaseTopic ≠ "" := by rw [hbase]; exact hacc.2.2.1
  have htrim : strings.Trim cfg'.MagistralaMQTTBaseTopic "/" = cfg'.MagistralaMQTTBaseTopic := by
    rw [hbase]; exact Trim_slash_idempotent _
  have hhead : cfg'.MagistralaMQTTBaseTopic.data.head? ≠ some '/' := by
    rw [hbase]; exact (Trim_slash_spec _).2.1
  have hid : msg.ApplicationID ≠ "" ∨ msg.DevEUI ≠ "" := by
    obtain ⟨_, _, hno⟩ := (decodeUplink_ok_iff rt body msg).1 hdec
    by_contra hcon
    push_neg at hcon
    exact hno hcon
  have hshape := buildTopic_shapes cfg'.MagistralaMQTTBaseTopic msg hid
  rw [htrim] at hshape
  have hfacts : ∃ mid : String, mid ≠ ""
      ∧ (buildTopic cfg'.MagistralaMQTTBaseTopic msg).data
          = cfg'.MagistralaMQTTBaseTopic.data ++ '/' :: (mid.data ++ ['/', 'u', 'p']) := by
    rcases hshape with ⟨ha, _, ht⟩ | ⟨ha, _, _, ht⟩ | ⟨ha, _, _, ht⟩ | ⟨_, hd, ht⟩
    · refine ⟨msg.ApplicationID ++ "/" ++ msg.DevEUI, ?_, ?_⟩
      · rw [String.append_assoc]; exact append_ne_empty_left _ _ ha
      · rw [ht]; simp [String.data_append]
    · refine ⟨msg.ApplicationID ++ "/" ++ msg.DeviceName, ?_, ?_⟩
      · rw [String.append_assoc]; exact append_ne_empty_left _ _ ha
      · rw [ht]; simp [String.data_append]
    · exact ⟨msg.ApplicationID, ha, by rw [ht]; simp [String.data_append]⟩
    · exact ⟨msg.DevEUI, hd, by rw [ht]; simp [String.data_append]⟩
  obtain ⟨mid, hmid, hT⟩ := hfacts
  obtain ⟨f1, f2, f3, f4⟩ := topic_facts cfg'.MagistralaMQTTBaseTopic mid _ hne hhead hmid hT
  exact ⟨hne, f1, f2, f3, f4, hid, hshape⟩

theorem pipeline_topic_witness :
    Config.Validate exampleNetLib { exampleConfig with MagistralaMQTTBaseTopic := "/lora/" }
      = (exampleConfig, none)
    ∧ decodeUplink exampleRuntime
        (asciiBytes "\x7b\"applicationId\":\"17\",\"dev_eui\":\"AABBCC\",\"device_name\":\"node\"\x7d")
      = .ok ⟨"17", "AABBCC", "node"⟩
    ∧ buildTopic exampleConfig.MagistralaMQTTBaseTopic ⟨"17", "AABBCC", "node"⟩
      ≠ exampleConfig.MagistralaMQTTBaseTopic ++ "/up" :=
  ⟨rfl, rfl,
    (pipeline_topic exampleNetLib { exampleConfig with MagistralaMQTTBaseTopic := "/lora/" }
      exampleConfig exampleRuntime
      (asciiBytes "\x7b\"applicationId\":\"17\",\"dev_eui\":\"AABBCC\",\"device_name\":\"node\"\x7d")
      ⟨"17", "AABBCC", "node"⟩ rfl rfl).2.2.2.2.1⟩

/-! ## Broker URL schemes -/

theorem dropWhile_ne_nil_of_mem {α : Type} (p : α → Bool) (l : List α) (x : α) (hx : x ∈ l)
    (hp : p x = false) : l.dropWhile p ≠ [] := by
  induction l with
  | nil => simp at hx
  | cons y ys ih =>
    by_cases hy : p y = true
    · simp only [List.dropWhile_cons, hy, if_true]
      rcases List.mem_cons.1 hx with h | h
      · rw [h, hy] at hp; cases hp
      · exact ih h
    · simp [List.dropWhile_cons, hy]

/-- A text whose first code point is not white space is not blank. -/
theorem TrimSpace_ne_empty_of_head (c : Char) (cs : List Char) (hc : unicode.IsSpace c = false) :
    strings.TrimSpace ⟨c :: cs⟩ ≠ "" := by
  intro h
  have hd := congrArg String.data h
  unfold strings.TrimSpace at hd
  simp only [List.dropWhile_cons, hc, Bool.false_eq_true, if_false] at hd
  have hnil : (c :: cs).reverse.dropWhile unicode.IsSpace = [] := by
    have := congrArg List.reverse hd
    simpa using this
  exact dropWhile_ne_nil_of_mem unicode.IsSpace (c :: cs).reverse c (by simp) hc hnil

theorem convertBrokerScheme_mqtt (rest : String) :
    convertBrokerScheme ("mqtt://" ++ rest) = "tcp://" ++ rest := by
  have hne : ("mqtt://" ++ rest : String) ≠ "" := append_ne_empty_left _ _ (by decide)
  have hp : strings.HasPrefix ("mqtt://" ++ rest) "mqtt://" = true := by
    unfold strings.HasPrefix
    rw [String.data_append, List.isPrefixOf_iff_prefix]
    exact List.prefix_append _ _
  unfold convertBrokerScheme
  rw [if_neg hne, if_pos hp]
  unfold strings.TrimPrefix
  rw [if_pos hp]
  congr 1

theorem convertBrokerScheme_mqtts (rest : String) :
    convertBrokerScheme ("mqtts://" ++ rest) = "ssl://" ++ rest := by
  have hne : ("mqtts://" ++ rest : String) ≠ "" := append_ne_empty_left _ _ (by decide)
  have hp0 : strings.HasPrefix ("mqtts://" ++ rest) "mqtt://" = false := by
    unfold strings.HasPrefix
    rw [String.data_append]
    rfl
  have hp : strings.HasPrefix ("mqtts://" ++ rest) "mqtts://" = true := by
    unfold strings.HasPrefix
    rw [String.data_append, List.isPrefixOf_iff_prefix]
    exact List.prefix_append _ _
  unfold convertBrokerScheme
  rw [if_neg hne, if_neg (by rw [hp0]; decide), if_pos hp]
  unfold strings.TrimPrefix
  rw [if_pos hp]
  congr 1

theorem Validate_rejects_scheme (lib : GoNetLib) (cfg : Config) (u : url.URL)
    (hparse : lib.urlParse cfg.MagistralaMQTTURL = .ok u)
    (hs : strings.ToLower lib.lowerTable u.Scheme ∉ ["mqtt", "tcp", "ssl", "tls", "ws", "wss"]) :
    (Config.Validate lib cfg).2 ≠ none := by
  intro hv
  obtain ⟨v, hv2⟩ := ((Validate_accepts_iff lib cfg).1.1 hv).2.2.2.1
  obtain ⟨_, hp, hmem, _⟩ := parseMQTTURL_ok lib _ v hv2
  rw [hparse] at hp
  injection hp with hp
  subst hp
  exact hs hmem

/-- C11: for every host, the URL `mqtt://host`, when `url.Parse` reads it with the scheme
"mqtt" and a host, is accepted by `parseMQTTURL`, and `NewMQTTPublisher` hands the client
the broker `tcp://host`. The URL `mqtts://host`, read by `url.Parse` with the scheme
"mqtts", is rejected by `parseMQTTURL` with "unsupported mqtt scheme: mqtts": `Validate`
returns this error and `NewMQTTPublisher` returns it without creating a client, so the
translation of `convertBrokerScheme` from `mqtts://host` to `ssl://host` is never
reached. -/
theorem broker_scheme_aliases (lib : GoNetLib) (randRead : Nat → Option (List UInt8))
    (connect : mqtt.ClientOptions → mqtt.Client × Option GoError) (cfg : Config)
    (host : String) (u : url.URL) :
    (lib.urlParse ("mqtt://" ++ host) = .ok u → u.Scheme = "mqtt" → u.Host ≠ "" →
        u.text = "mqtt://" ++ host →
        parseMQTTURL lib ("mqtt://" ++ host) = .ok u
        ∧ (cfg.MagistralaMQTTURL = "mqtt://" ++ host →
            ∃ opts, (NewMQTTPublisher lib randRead connect cfg).2 = [opts]
              ∧ opts.Brokers = ["tcp://" ++ host]))
    ∧ (lib.urlParse ("mqtts://" ++ host) = .ok u → u.Scheme = "mqtts" →
        parseMQTTURL lib ("mqtts://" ++ host)
          = .error (fmt.Errorf "unsupported mqtt scheme: mqtts")
        ∧ (cfg.MagistralaMQTTURL = "mqtts://" ++ host →
            NewMQTTPublisher lib randRead connect cfg
              = (.error (fmt.Errorf "unsupported mqtt scheme: mqtts"), [])
            ∧ (Config.Validate lib cfg).2 ≠ none))
    ∧ convertBrokerScheme ("mqtt://" ++ host) = "tcp://" ++ host
    ∧ convertBrokerScheme ("mqtts://" ++ host) = "ssl://" ++ host := by
  refine ⟨?_, ?_, convertBrokerScheme_mqtt host, convertBrokerScheme_mqtts host⟩
  · intro hparse hscheme hhost htext
    have hblank : strings.TrimSpace ("mqtt://" ++ host) ≠ "" := by
      have : ("mqtt://" ++ host : String) = ⟨'m' :: ("qtt://".data ++ host.data)⟩ := by
        apply String.ext
        rw [String.data_append]
        rfl
      rw [this]
      exact TrimSpace_ne_empty_of_head _ _ (by decide)
    have hlow : strings.ToLower lib.lowerTable u.Scheme
        ∈ ["mqtt", "tcp", "ssl", "tls", "ws", "wss"] := by
      rw [hscheme]
      have : strings.ToLower lib.lowerTable "mqtt" = "mqtt" := rfl
      rw [this]
      decide
    have hok : parseMQTTURL lib ("mqtt://" ++ host) = .ok u := by
      unfold parseMQTTURL
      rw [if_neg hblank, hparse]
      simp only []
      rw [if_pos hlow, if_neg hhost]
    refine ⟨hok, ?_⟩
    intro hurl
    unfold NewMQTTPublisher
    rw [hurl, hok]
    simp only [htext, convertBrokerScheme_mqtt]
    split <;> exact ⟨_, rfl, rfl⟩
  · intro hparse hscheme
    have hblank : strings.TrimSpace ("mqtts://" ++ host) ≠ "" := by
      have : ("mqtts://" ++ host : String) = ⟨'m' :: ("qtts://".data ++ host.data)⟩ := by
        apply String.ext
        rw [String.data_append]
        rfl
      rw [this]
      exact TrimSpace_ne_empty_of_head _ _ (by decide)
    have hlow : strings.ToLower lib.lowerTable u.Scheme
        ∉ ["mqtt", "tcp", "ssl", "tls", "ws", "wss"] := by
      rw [hscheme]
      have : strings.ToLower lib.lowerTable "mqtts" = "mqtts" := rfl
      rw [this]
      decide
    have herr : parseMQTTURL lib ("mqtts://" ++ host)
        = .error (fmt.Errorf "unsupported mqtt scheme: mqtts") := by
      unfold parseMQTTURL
      rw [if_neg hblank, hparse]
      simp only []
      rw [if_neg hlow, hscheme]
      rfl
    refine ⟨herr, ?_⟩
    intro hurl
    constructor
    · unfold NewMQTTPublisher
      rw [hurl, herr]
    · exact Validate_rejects_scheme lib cfg u (by rw [hurl]; exact hparse) hlow

theorem broker_scheme_aliases_witness :
    exampleNetLib.urlParse "mqtts://broker:8883"
      = .ok ⟨"mqtts", "broker:8883", "mqtts://broker:8883"⟩
    ∧ parseMQTTURL exampleNetLib "mqtts://broker:8883"
      = .error (GoError.new "unsupported mqtt scheme: mqtts")
    ∧ NewMQTTPublisher exampleNetLib randReadAB connectOK
        { exampleConfig with MagistralaMQTTURL := "mqtts://broker:8883" }
      = (.error (GoError.new "unsupported mqtt scheme: mqtts"), [])
    ∧ (NewMQTTPublisher exampleNetLib randReadAB connectOK exampleConfig).2
      = [{ Brokers := ["tcp://broker:1883"], ClientID := "lora-adapter-ababab", Username := "",
            Password := "", ConnectRetry := true, ConnectRetryInterval := 2000000000,
            AutoReconnect := true }] :=
  ⟨rfl,
    ((broker_scheme_aliases exampleNetLib randReadAB connectOK
        { exampleConfig with MagistralaMQTTURL := "mqtts://broker:8883" } "broker:8883"
        ⟨"mqtts", "broker:8883", "mqtts://broker:8883"⟩).2.1 rfl rfl).1,
    (((broker_scheme_aliases exampleNetLib randReadAB connectOK
        { exampleConfig with MagistralaMQTTURL := "mqtts://broker:8883" } "broker:8883"
        ⟨"mqtts", "broker:8883", "mqtts://broker:8883"⟩).2.1 rfl rfl).2 rfl).1,
    rfl⟩
